import Mathlib

/-!
# Configuration bootstrap: `config/propertyConfig.go`

A shallow embedding of the start-up pipeline of package `config`.

The Go file is sequential glue over three library clients (the viper settings
registry, its remote key/value back end, and the Vault API client).  The embedding
keeps the control flow of every function of the file and makes the outside world
explicit:

* every library call whose result depends on the file system, the network or the
  process environment is a field of `World`, applied to the arguments the Go code
  passes (or to the registry settings the call consults);
* the registry is the record `Viper`, with the two value layers the file writes to:
  the configuration layer (`ReadInConfig`, `ReadConfig`) and the key/value layer
  (`ReadRemoteConfig`);
* every library call is appended to a trace of `Event`s, so that statements about
  which sources are contacted, and in which order, are statements about the trace;
* process termination is an `Exit` value carried together with the state reached.

## What is taken from the libraries

The behaviour of the viper calls follows the library:

* `ReadInConfig` and `ReadConfig` both replace the configuration layer; `ReadConfig`
  "will read a configuration file, setting existing keys to nil if the key does not
  exist in the file": it starts from an empty layer.  Merging is the job of the
  separate calls `MergeInConfig` and `MergeConfig`, which the file never makes.
* `ReadRemoteConfig` decodes the remote document into the key/value layer, which is
  distinct from the configuration layer.
* `AddRemoteProvider` returns an error exactly for a provider name outside the
  list `SupportedRemoteProviders`.
* `Get` lower-cases the key, splits it at the dots and looks the path up in the
  order: explicit `Set`, flag, environment, configuration file, key/value store,
  default.  The file never sets an override, binds a flag or an environment variable,
  registers an alias or sets a default, so only the two middle layers are kept.  The
  configuration layer is searched through nested maps, preferring a map key that
  spells a longer part of the path with its dots; the key/value layer is searched
  through nested maps only; a value that is not a map, found in the configuration
  layer on the way to the key, shadows the key/value layer.
* `GetString` and `GetInt` convert the looked-up value with `cast.ToString` and
  `cast.ToInt`, which give `""` and `0` for a missing key; `GetInt` returns a 64-bit
  integer.

## Scope of the data model

A decoded document is a map from keys to values; a value is null, a string, an
integer, a boolean or a nested map.  Documents are taken as viper stores them, with
their keys already lower-cased.  Sequences and floating-point numbers are outside the
data model.  Search paths are kept as written; viper stores them resolved against the
working directory.
-/

namespace Config

/-! ## Constants (lines 15-21) -/

def ConsulProvider : String := "consul"
def AuthPath : String := "auth/approle/login"
def VaultSecretPath : String := "/secret"
def VaultRoleIdKey : String := "VAULT_ROLE_ID"
def VaultSecretIdKey : String := "VAULT_SECRET_ID"

/-! ## Data model -/

/-- A value of a decoded YAML or JSON document.  An `int` stands for a value of one of
Go's integer types, as the decoders produce them. -/
inductive Value where
  | null
  | str (s : String)
  | int (i : Int)
  | bool (b : Bool)
  | map (entries : List (String × Value))
  deriving Repr

/-- A decoded document: the entries of its top-level map.  The first entry for a key
is the one in force. -/
abbrev Doc := List (String × Value)

mutual
/-- Decidable equality of values. -/
def Value.decEq : (a b : Value) → Decidable (a = b)
  | .null, .null => isTrue rfl
  | .str a, .str b =>
    if h : a = b then isTrue (by rw [h]) else isFalse (fun h2 => h (by injection h2))
  | .int a, .int b =>
    if h : a = b then isTrue (by rw [h]) else isFalse (fun h2 => h (by injection h2))
  | .bool a, .bool b =>
    if h : a = b then isTrue (by rw [h]) else isFalse (fun h2 => h (by injection h2))
  | .map a, .map b =>
    match Value.decEqEntries a b with
    | isTrue h => isTrue (by rw [h])
    | isFalse h => isFalse (fun h2 => h (by injection h2))
  | .null, .str _ => isFalse nofun
  | .null, .int _ => isFalse nofun
  | .null, .bool _ => isFalse nofun
  | .null, .map _ => isFalse nofun
  | .str _, .null => isFalse nofun
  | .str _, .int _ => isFalse nofun
  | .str _, .bool _ => isFalse nofun
  | .str _, .map _ => isFalse nofun
  | .int _, .null => isFalse nofun
  | .int _, .str _ => isFalse nofun
  | .int _, .bool _ => isFalse nofun
  | .int _, .map _ => isFalse nofun
  | .bool _, .null => isFalse nofun
  | .bool _, .str _ => isFalse nofun
  | .bool _, .int _ => isFalse nofun
  | .bool _, .map _ => isFalse nofun
  | .map _, .null => isFalse nofun
  | .map _, .str _ => isFalse nofun
  | .map _, .int _ => isFalse nofun
  | .map _, .bool _ => isFalse nofun
/-- Decidable equality of lists of entries. -/
def Value.decEqEntries : (a b : List (String × Value)) → Decidable (a = b)
  | [], [] => isTrue rfl
  | [], _ :: _ => isFalse nofun
  | _ :: _, [] => isFalse nofun
  | (k, v) :: as, (k2, v2) :: bs =>
    if hk : k = k2 then
      match Value.decEq v v2 with
      | isTrue hv =>
        match Value.decEqEntries as bs with
        | isTrue hr => isTrue (by rw [hk, hv, hr])
        | isFalse hr => isFalse (fun h2 => hr (by injection h2))
      | isFalse hv => isFalse (fun h2 => hv (by injection h2 with h3 _; injection h3))
    else isFalse (fun h2 => hk (by injection h2 with h3 _; injection h3))
end

instance : DecidableEq Value := Value.decEq

/-- An entry of viper's list of remote providers. -/
structure RemoteProvider where
  provider : String
  endpoint : String
  path : String
  deriving DecidableEq, Repr

/-- The part of the process-wide viper instance that the file reads or writes. -/
structure Viper where
  configName : String
  configType : String
  configPaths : List String
  remoteProviders : List RemoteProvider
  /-- Configuration layer: replaced by `ReadInConfig` and by `ReadConfig` -/
  config : Doc
  /-- Key/value layer: filled by `ReadRemoteConfig` -/
  kvstore : Doc
  deriving DecidableEq, Repr

/-- The instance as `viper.New()` leaves it. -/
def Viper.fresh : Viper :=
  { configName := "config", configType := "", configPaths := [],
    remoteProviders := [], config := [], kvstore := [] }

/-- The Vault client handle: the address it talks to and the token it carries. -/
structure VaultClient where
  address : String
  token : String
  deriving DecidableEq, Repr

/-- The `Auth` block of a Vault response. -/
structure SecretAuth where
  clientToken : String
  deriving DecidableEq, Repr

/-- A Vault response (`*api.Secret`); `auth = none` is a nil `Auth` pointer. -/
structure Secret where
  auth : Option SecretAuth
  deriving DecidableEq, Repr

/-- The outside world: one field per library call whose result depends on something
outside the process.  Errors carry the text of the Go `error`. -/
structure World where
  /-- Call `os.Getenv`: the empty string for an unset variable -/
  getenv : String → String
  /-- Locating, reading and decoding the configuration file, from the configured
  name, type and search paths (the fallible part of `viper.ReadInConfig`) -/
  readInConfig : String → String → List String → Except String Doc
  /-- Fetching and decoding the remote document from the registered providers, under the
  current configuration type (the fallible part of `viper.ReadRemoteConfig`) -/
  readRemoteConfig : List RemoteProvider → String → Except String Doc
  /-- Call `api.NewClient` on a configuration with the given address -/
  newClient : String → Except String VaultClient
  /-- Call `client.Logical().Write` on a path with the body made of a role identifier
  and a secret identifier; `.ok none` is a nil response returned with a nil error -/
  write : VaultClient → String → String → String → Except String (Option Secret)
  /-- Call `client.KVv2(mount).Get(ctx, path)`: the data payload of the secret -/
  kvGet : VaultClient → String → String → Except String Doc
  /-- Call `json.MarshalIndent` on a data payload -/
  marshalIndent : Doc → Except String String
  /-- Decoding a text of the given configuration type (the fallible part of
  `viper.ReadConfig`) -/
  decode : String → String → Except String Doc
  /-- The integer parse behind `cast.ToInt` on a string (`strconv.ParseInt` with base
  0); `none` is a parse error -/
  parseInt : String → Option Int

/-- A library call made by the pipeline, with its arguments. -/
inductive Event where
  | readInConfig (name type : String) (paths : List String)
  | addRemoteProvider (provider endpoint path : String)
  | readRemoteConfig (providers : List RemoteProvider) (type : String)
  | newClient (address : String)
  | write (client : VaultClient) (path roleId secretId : String)
  | setToken (token : String)
  | kvGet (client : VaultClient) (mount path : String)
  | marshalIndent (data : Doc)
  | readConfig (type json : String)
  deriving DecidableEq, Repr

/-- How the process is terminated. -/
inductive Exit where
  /-- Call of `log.Fatal v`: the value is logged, then `os.Exit(1)` -/
  | logFatal (msg : String)
  /-- An explicit `panic(err)` -/
  | panic (msg : String)
  /-- The run-time panic of a nil pointer dereference -/
  | nilDereference
  deriving DecidableEq, Repr

/-- Process state: the registry and the library calls made so far. -/
structure Proc where
  viper : Viper
  trace : List Event
  deriving DecidableEq, Repr

/-- Outcome of running a function: it returns, or the process is terminated. -/
inductive Res (α : Type) where
  | done (a : α) (p : Proc)
  | exit (e : Exit) (p : Proc)
  deriving DecidableEq, Repr

/-- The state in which the function returned or the process was terminated. -/
def Res.proc {α : Type} : Res α → Proc
  | .done _ p => p
  | .exit _ p => p

/-- The termination, if any. -/
def Res.exit? {α : Type} : Res α → Option Exit
  | .done _ _ => none
  | .exit e _ => some e

/-- A function of the file: a state transformer that may terminate the process. -/
def M (α : Type) : Type := Proc → Res α

/-- Continue from an outcome: a termination skips everything that follows. -/
def Res.andThen {α β : Type} (f : α → M β) : Res α → Res β
  | .done a q => f a q
  | .exit e q => .exit e q

/-- Sequencing of two functions. -/
def M.bind {α β : Type} (m : M α) (f : α → M β) : M β := fun p => (m p).andThen f

instance : Monad M where
  pure a := fun p => .done a p
  bind := M.bind

/-- Record a library call. -/
def emit (e : Event) : M Unit := fun p => .done () { p with trace := p.trace ++ [e] }

/-- Terminate the process. -/
def terminate {α : Type} (e : Exit) : M α := fun p => .exit e p

/-- Read the registry. -/
def getViper : M Viper := fun p => .done p.viper p

/-- Update the registry. -/
def modifyViper (f : Viper → Viper) : M Unit := fun p => .done () { p with viper := f p.viper }

/-! ## The viper calls used by the file -/

/-- The provider names `viper.AddRemoteProvider` accepts. -/
def SupportedRemoteProviders : List String := ["etcd", "etcd3", "consul", "firestore", "nats"]

/-- The conversion `strings.ToLower`, on the letters `A` to `Z`.  It is exact on ASCII
strings; every key the file passes to viper is an ASCII literal. -/
def lowerKey (key : String) : String := String.mk (key.toList.map Char.toLower)

/-- Splitting a list of characters at every occurrence of a separator; the result is
never empty. -/
def splitChars (sep : Char) : List Char → List (List Char)
  | [] => [[]]
  | c :: cs =>
    match splitChars sep cs with
    | [] => [[]]
    | seg :: segs => if c = sep then [] :: seg :: segs else (c :: seg) :: segs

/-- The call `strings.Split(key, ".")` with viper's key delimiter. -/
def splitKey (key : String) : List String := (splitChars '.' key.toList).map String.mk

/-- The call `strings.Join(path[0:i], ".")`. -/
def pathKey (path : List String) (i : Nat) : String := String.intercalate "." (path.take i)

/-- A looked-up value as Go sees it: a null is the nil interface, that is, nothing. -/
def nonNil : Value → Option Value
  | .null => none
  | v => some v

/-- Viper's `searchMap`: follow the path through nested maps, one path element per
map key.  The empty path gives the map itself; `none` is nil. -/
def searchMap (source : Doc) : List String → Option Value
  | [] => some (.map source)
  | key :: rest =>
    match source.lookup key with
    | none => none
    | some next =>
      match rest with
      | [] => nonNil next
      | _ :: _ =>
        match next with
        | .map sub => searchMap sub rest
        | _ => none

/-- Viper's `searchMapWithPathPrefixes`: the map is asked for the key that spells the
first `pathIndex` path elements; a hit is the result if the path ends there, and is
searched further if it is a map. -/
def searchMapWithPathPrefixes (search : Doc → List String → Option Value)
    (sourceMap : Doc) (key : String) (pathIndex : Nat) (path : List String) : Option Value :=
  match sourceMap.lookup key with
  | none => none
  | some next =>
    if pathIndex = path.length then nonNil next
    else
      match next with
      | .map sub => search sub (path.drop pathIndex)
      | _ => none

/-- The loop of `searchIndexableWithPathPrefixes`: the parts `path[0:i]`, joined and
lower-cased, are tried from `i` downwards, and the first hit that is not nil is
returned. -/
def searchLoop (search : Doc → List String → Option Value) (source : Doc)
    (path : List String) : Nat → Option Value
  | 0 => none
  | i + 1 =>
    match searchMapWithPathPrefixes search source (lowerKey (pathKey path (i + 1))) (i + 1)
        path with
    | some val => some val
    | none => searchLoop search source path i

/-- Viper's `searchIndexableWithPathPrefixes` on maps, with the depth of the recursion
bounded by `fuel`; every recursive call is on a shorter path, so the length of the
path is enough fuel.  The empty path gives the map itself; `none` is nil. -/
def searchIndexableWithPathPrefixes : Nat → Doc → List String → Option Value
  | _, source, [] => some (.map source)
  | 0, _, _ :: _ => none
  | fuel + 1, source, key :: rest =>
    searchLoop (searchIndexableWithPathPrefixes fuel) source (key :: rest) (key :: rest).length

/-- The loop of `isPathShadowedInDeepMap`, at index `i` with `steps` indices left. -/
def isPathShadowedFrom (m : Doc) (path : List String) (i : Nat) : Nat → String
  | 0 => ""
  | steps + 1 =>
    match searchMap m (path.take i) with
    | none => ""
    | some (.map _) => isPathShadowedFrom m path (i + 1) steps
    | some _ => pathKey path i

/-- Viper's `isPathShadowedInDeepMap`: the spelling of the first proper part of the
path that holds a value which is not a map, or `""` if there is none. -/
def isPathShadowedInDeepMap (path : List String) (m : Doc) : String :=
  isPathShadowedFrom m path 1 (path.length - 1)

/-- Viper's `find` over the layers the file fills: the configuration layer; if it has
nothing and does not shadow the path, the key/value layer. -/
def Viper.find (v : Viper) (path : List String) : Option Value :=
  match searchIndexableWithPathPrefixes path.length v.config path with
  | some val => some val
  | none =>
    if 1 < path.length ∧ isPathShadowedInDeepMap path v.config ≠ "" then none
    else searchMap v.kvstore path

/-- The call `viper.Get key`. -/
def Viper.Get (v : Viper) (key : String) : Option Value := v.find (splitKey (lowerKey key))

/-- A Go `int` (64 bits, two's complement) from an integer. -/
def wrapInt64 (i : Int) : Int :=
  (i + 9223372036854775808) % 18446744073709551616 - 9223372036854775808

/-- The conversion `cast.ToString` of a looked-up value (`none` is nil). -/
def castToString : Option Value → String
  | none => ""
  | some .null => ""
  | some (.str s) => s
  | some (.int i) => toString i
  | some (.bool b) => if b then "true" else "false"
  | some (.map _) => ""

/-- The conversion `cast.ToInt` of a looked-up value (`none` is nil). -/
def castToInt (w : World) : Option Value → Int
  | none => 0
  | some .null => 0
  | some (.str s) => wrapInt64 ((w.parseInt s).getD 0)
  | some (.int i) => wrapInt64 i
  | some (.bool b) => if b then 1 else 0
  | some (.map _) => 0

def Viper.GetString (v : Viper) (key : String) : String := castToString (v.Get key)

def Viper.GetInt (w : World) (v : Viper) (key : String) : Int := castToInt w (v.Get key)

def SetConfigName (name : String) : M Unit :=
  modifyViper fun v => { v with configName := name }

def SetConfigType (type : String) : M Unit :=
  modifyViper fun v => { v with configType := type }

/-- The search paths after adding one: it is appended unless it is empty or
already listed. -/
def addPath (dir : String) (paths : List String) : List String :=
  if dir ≠ "" ∧ dir ∉ paths then paths ++ [dir] else paths

def AddConfigPath (dir : String) : M Unit :=
  modifyViper fun v => { v with configPaths := addPath dir v.configPaths }

/-- On success the configuration layer is replaced by the decoded file; on failure
it is left as it was. -/
def ReadInConfig (w : World) : M (Option String) := do
  let v ← getViper
  emit (.readInConfig v.configName v.configType v.configPaths)
  match w.readInConfig v.configName v.configType v.configPaths with
  | .error e => pure (some e)
  | .ok doc =>
    modifyViper fun v => { v with config := doc }
    pure none

/-- The provider list after registering one: it is appended unless its name or
endpoint is empty or an equal entry is already listed. -/
def addProvider (rp : RemoteProvider) (rps : List RemoteProvider) : List RemoteProvider :=
  if rp.provider ≠ "" ∧ rp.endpoint ≠ "" ∧ rp ∉ rps then rps ++ [rp] else rps

/-- The text of viper's `UnsupportedRemoteProviderError`. -/
def unsupportedRemoteProvider (provider : String) : String :=
  "Unsupported Remote Provider Type " ++ provider.quote

/-- An error is returned, without registering anything, exactly for a provider name
outside `SupportedRemoteProviders`. -/
def AddRemoteProvider (provider endpoint path : String) : M (Option String) := do
  emit (.addRemoteProvider provider endpoint path)
  if provider ∉ SupportedRemoteProviders then pure (some (unsupportedRemoteProvider provider))
  else do
    modifyViper fun v =>
      { v with remoteProviders :=
          addProvider { provider := provider, endpoint := endpoint, path := path } v.remoteProviders }
    pure none

/-- On success the remote document is decoded into the key/value layer (its keys
win over keys already there); on failure the layer is left as it was. -/
def ReadRemoteConfig (w : World) : M (Option String) := do
  let v ← getViper
  emit (.readRemoteConfig v.remoteProviders v.configType)
  match w.readRemoteConfig v.remoteProviders v.configType with
  | .error e => pure (some e)
  | .ok doc =>
    modifyViper fun v => { v with kvstore := doc ++ v.kvstore }
    pure none

/-- The configuration layer is emptied first, then the text is decoded into it. -/
def ReadConfig (w : World) (text : String) : M (Option String) := do
  let v ← getViper
  emit (.readConfig v.configType text)
  modifyViper fun v => { v with config := [] }
  match w.decode v.configType text with
  | .error e => pure (some e)
  | .ok doc =>
    modifyViper fun v => { v with config := doc }
    pure none

/-! ## The functions of the file -/

/-- Lines 36-44. -/
def loadLocalConfig (w : World) : M Unit := do
  SetConfigName "config-local"
  SetConfigType "yaml"
  AddConfigPath "resources"
  match ← ReadInConfig w with
  | some err => terminate (.logFatal err)
  | none => pure ()

/-- Lines 46-54. -/
def loadEnvConfig (w : World) : M Unit := do
  SetConfigName "config"
  SetConfigType "yaml"
  AddConfigPath "resources"
  match ← ReadInConfig w with
  | some err => terminate (.logFatal err)
  | none => pure ()

/-- Lines 90-99. -/
def buildConsulEndpointAndPath (env : String) : M (String × String) := do
  let v ← getViper
  let host := v.GetString "consul.host"
  let port := v.GetString "consul.port"
  let consulPath := v.GetString "consul.path"
  let endpoint := host ++ ":" ++ port
  let path := consulPath ++ env
  pure (endpoint, path)

/-- Lines 128-134. -/
def buildVaultEndpoint (w : World) : M String := do
  let v ← getViper
  let scheme := v.GetString "vault.scheme"
  let host := v.GetString "vault.host"
  let port := v.GetInt w "vault.port"
  pure (scheme ++ "://" ++ host ++ ":" ++ toString port)

/-- Lines 101-126. -/
def getVaultClient (w : World) : M VaultClient := do
  let roleId := w.getenv VaultRoleIdKey
  let secretId := w.getenv VaultSecretIdKey
  let address ← buildVaultEndpoint w
  emit (.newClient address)
  match w.newClient address with
  | .error err => terminate (.logFatal err)
  | .ok vaultClient =>
    emit (.write vaultClient AuthPath roleId secretId)
    match w.write vaultClient AuthPath roleId secretId with
    | .error err => terminate (.logFatal err)
    | .ok none => terminate .nilDereference
    | .ok (some response) =>
      match response.auth with
      | none => terminate (.logFatal "Vault Authentication failed")
      | some auth =>
        if auth.clientToken = "" then terminate (.logFatal "Vault Authentication failed")
        else do
          emit (.setToken auth.clientToken)
          pure { vaultClient with token := auth.clientToken }

/-- Lines 74-88. -/
def getVaultConfigAsJson (w : World) (env : String) : M String := do
  let vaultClient ← getVaultClient w
  let vaultPath := (← getViper).GetString "vault.path"
  emit (.kvGet vaultClient VaultSecretPath (vaultPath ++ env))
  match w.kvGet vaultClient VaultSecretPath (vaultPath ++ env) with
  | .error err => terminate (.logFatal err)
  | .ok data =>
    emit (.marshalIndent data)
    match w.marshalIndent data with
    | .error jsonError => terminate (.logFatal jsonError)
    | .ok jsonData => pure jsonData

/-- Lines 56-72. -/
def loadRemoteConfig (w : World) (env : String) : M Unit := do
  loadEnvConfig w
  let (endpoint, path) ← buildConsulEndpointAndPath env
  match ← AddRemoteProvider ConsulProvider endpoint path with
  | some err => terminate (.panic err)
  | none =>
    match ← ReadRemoteConfig w with
    | some consulErr => terminate (.logFatal consulErr)
    | none =>
      SetConfigType "json"
      let json ← getVaultConfigAsJson w env
      match ← ReadConfig w json with
      | some vaultConfigErr => terminate (.logFatal vaultConfigErr)
      | none => pure ()

/-- Lines 27-34. -/
def loadConfig (w : World) : M Unit := do
  let env := w.getenv "APP_ENV"
  if env = "local" then loadLocalConfig w else loadRemoteConfig w env

/-! ## Vocabulary for the statements -/

/-- The Go `error` a recorded call returns in world `w`, if any.  `SetToken` returns
nothing. -/
def callError (w : World) : Event → Option String
  | .readInConfig name type paths =>
    match w.readInConfig name type paths with
    | .error e => some e
    | .ok _ => none
  | .addRemoteProvider provider _ _ =>
    if provider ∉ SupportedRemoteProviders then some (unsupportedRemoteProvider provider)
    else none
  | .readRemoteConfig providers type =>
    match w.readRemoteConfig providers type with
    | .error e => some e
    | .ok _ => none
  | .newClient address =>
    match w.newClient address with
    | .error e => some e
    | .ok _ => none
  | .write client path roleId secretId =>
    match w.write client path roleId secretId with
    | .error e => some e
    | .ok _ => none
  | .setToken _ => none
  | .kvGet client mount path =>
    match w.kvGet client mount path with
    | .error e => some e
    | .ok _ => none
  | .marshalIndent data =>
    match w.marshalIndent data with
    | .error e => some e
    | .ok _ => none
  | .readConfig type json =>
    match w.decode type json with
    | .error e => some e
    | .ok _ => none

/-- The value a document gives for a key path when it is the configuration layer;
`none` when it has nothing there, or a null. -/
def Doc.configValue (d : Doc) (path : List String) : Option Value :=
  searchIndexableWithPathPrefixes path.length d path

/-- The value a document gives for a key path when it is the key/value layer, which is
searched through nested maps only; `none` when it has nothing there, or a null. -/
def Doc.kvValue (d : Doc) (path : List String) : Option Value := searchMap d path

/-! ## A sample deployment, used to instantiate the statements -/

def sampleYaml : Doc :=
  [("consul", .map [("host", .str "consul.internal"), ("port", .int 8500),
      ("path", .str "apps/orders/")]),
   ("vault", .map [("scheme", .str "https"), ("host", .str "vault.internal"),
      ("port", .int 8200), ("path", .str "orders/")]),
   ("db", .map [("url", .str "yaml-db")]),
   ("cache", .map [("ttl", .int 10)]),
   ("app", .map [("name", .str "orders")])]

def sampleKv : Doc :=
  [("db", .map [("url", .str "kv-db")]), ("cache", .map [("ttl", .int 60)])]

/-- A secret whose keys are spelled with their dots, as a flat Vault secret is. -/
def sampleSecret : Doc := [("db.url", .str "secret-db"), ("db.password", .str "s3cr3t")]

/-- A secret that holds a string under `db`. -/
def scalarSecret : Doc := [("db", .str "offline")]

/-- A world in which every call succeeds, for the given value of `APP_ENV`. -/
def sampleWorld (appEnv : String) : World where
  getenv := fun k =>
    if k = "APP_ENV" then appEnv
    else if k = VaultRoleIdKey then "role-1"
    else if k = VaultSecretIdKey then "secret-1"
    else ""
  readInConfig := fun name type _ =>
    if type = "yaml" ∧ (name = "config" ∨ name = "config-local") then .ok sampleYaml
    else .error "Config File Not Found"
  readRemoteConfig := fun providers _ =>
    if providers = [] then .error "No Remote Providers" else .ok sampleKv
  newClient := fun address => .ok { address := address, token := "" }
  write := fun _ path _ _ =>
    if path = AuthPath then .ok (some { auth := some { clientToken := "s.token" } })
    else .error "unsupported path"
  kvGet := fun client _ _ =>
    if client.token = "s.token" then .ok sampleSecret else .error "permission denied"
  marshalIndent := fun _ => .ok "secret-json"
  decode := fun type text =>
    if type = "json" ∧ text = "secret-json" then .ok sampleSecret else .error "decode error"
  parseInt := fun _ => none

/-- The sample world with the secret `scalarSecret` in the secret store. -/
def scalarSecretWorld : World :=
  { sampleWorld "dev" with
    kvGet := fun _ _ _ => .ok scalarSecret
    decode := fun _ _ => .ok scalarSecret }

/-- The sample world with a malformed YAML file. -/
def badYamlWorld (appEnv : String) : World :=
  { sampleWorld appEnv with readInConfig := fun _ _ _ => .error "yaml: unmarshal errors" }

/-- The sample world with a remote store that cannot be read. -/
def badRemoteWorld : World :=
  { sampleWorld "dev" with readRemoteConfig := fun _ _ => .error "Remote Configurations Error" }

/-- The sample world with a failing login call. -/
def badLoginWorld : World :=
  { sampleWorld "dev" with write := fun _ _ _ _ => .error "permission denied" }

/-- The sample world in which the login call returns a nil response and a nil error. -/
def nilResponseWorld : World :=
  { sampleWorld "dev" with write := fun _ _ _ _ => .ok none }

/-- A run starts from the registry as `viper.New()` leaves it and an empty trace. -/
def Proc.start : Proc := { viper := Viper.fresh, trace := [] }

/-- The fresh registry with the sample YAML file loaded. -/
def sampleLoaded : Proc :=
  { viper := { Viper.fresh with config := sampleYaml }, trace := [] }

/-- The state `sampleLoaded` after the secret store has been read. -/
def sampleAfterVault : Proc :=
  { viper := sampleLoaded.viper,
    trace :=
      [.newClient "https://vault.internal:8200",
       .write ⟨"https://vault.internal:8200", ""⟩ "auth/approle/login" "role-1" "secret-1",
       .setToken "s.token",
       .kvGet ⟨"https://vault.internal:8200", "s.token"⟩ "/secret" "orders/dev",
       .marshalIndent sampleSecret] }

/-! ## Running the functions: basic facts -/

theorem bind_apply {α β : Type} (m : M α) (f : α → M β) (p : Proc) :
    (m >>= f) p = (m p).andThen f := rfl

theorem pure_apply {α : Type} (a : α) (p : Proc) : (pure a : M α) p = .done a p := rfl

theorem andThen_done {α β : Type} (f : α → M β) (a : α) (q : Proc) :
    (Res.done a q).andThen f = f a q := rfl

theorem andThen_exit {α β : Type} (f : α → M β) (e : Exit) (q : Proc) :
    (Res.exit e q : Res α).andThen f = .exit e q := rfl

/-- A successful `getVaultConfigAsJson`: the calls it made, what they returned, and
that the registry is untouched. -/
theorem getVaultConfigAsJson_done (w : World) (env : String) (p q : Proc) (json : String)
    (h : getVaultConfigAsJson w env p = .done json q) :
    ∃ addr client tok data,
      w.newClient addr = .ok client ∧
      w.write client AuthPath (w.getenv VaultRoleIdKey) (w.getenv VaultSecretIdKey) =
        .ok (some ⟨some ⟨tok⟩⟩) ∧
      tok ≠ "" ∧
      w.kvGet ⟨client.address, tok⟩ VaultSecretPath (p.viper.GetString "vault.path" ++ env) =
        .ok data ∧
      w.marshalIndent data = .ok json ∧
      q.viper = p.viper ∧
      q.trace = p.trace ++
        [.newClient addr,
         .write client AuthPath (w.getenv VaultRoleIdKey) (w.getenv VaultSecretIdKey),
         .setToken tok,
         .kvGet ⟨client.address, tok⟩ VaultSecretPath (p.viper.GetString "vault.path" ++ env),
         .marshalIndent data] := by
  simp only [getVaultConfigAsJson, getVaultClient, buildVaultEndpoint, bind_apply, pure_apply,
    andThen_done, getViper, emit] at h
  generalize h1 : w.newClient _ = x1 at h
  cases x1 with
  | error e => simp [terminate, andThen_exit] at h
  | ok client =>
    simp only [bind_apply, pure_apply, andThen_done, andThen_exit, getViper, emit, terminate,
      modifyViper] at h
    generalize h2 : w.write _ _ _ _ = x2 at h
    rcases x2 with e | _ | ⟨_ | ⟨⟨tok⟩⟩⟩
    · simp [terminate, andThen_exit] at h
    · simp [terminate, andThen_exit] at h
    · simp [terminate, andThen_exit] at h
    · simp only [] at h
      split at h
      · simp [terminate, andThen_exit] at h
      · rename_i htok
        simp only [bind_apply, pure_apply, andThen_done, andThen_exit, getViper, emit, terminate,
      modifyViper] at h
        generalize h3 : w.kvGet _ _ _ = x3 at h
        cases x3 with
        | error e => simp [terminate] at h
        | ok data =>
          simp only [bind_apply, pure_apply, andThen_done, andThen_exit, getViper, emit, terminate,
      modifyViper] at h
          generalize h4 : w.marshalIndent _ = x4 at h
          cases x4 with
          | error e => simp [terminate] at h
          | ok j =>
            simp only [pure_apply, Res.done.injEq] at h
            obtain ⟨rfl, rfl⟩ := h
            exact ⟨_, client, tok, data, h1, h2, htok, h3, h4, rfl, by simp⟩

/-- A terminated `getVaultConfigAsJson`: the registry is untouched, the trace ends
with the call at which it stopped, and the termination is the one of that call. -/
theorem getVaultConfigAsJson_exit (w : World) (env : String) (p q : Proc) (x : Exit)
    (h : getVaultConfigAsJson w env p = .exit x q) :
    q.viper = p.viper ∧
    ∃ addr, (∃ msg, w.newClient addr = .error msg ∧ x = .logFatal msg ∧
        q.trace = p.trace ++ [.newClient addr]) ∨
      ∃ client, w.newClient addr = .ok client ∧
        ((q.trace = p.trace ++ [.newClient addr,
              .write client AuthPath (w.getenv VaultRoleIdKey) (w.getenv VaultSecretIdKey)] ∧
            ((∃ msg, w.write client AuthPath (w.getenv VaultRoleIdKey) (w.getenv VaultSecretIdKey) =
                  .error msg ∧ x = .logFatal msg) ∨
              (w.write client AuthPath (w.getenv VaultRoleIdKey) (w.getenv VaultSecretIdKey) =
                  .ok none ∧ x = .nilDereference) ∨
              (∃ resp, w.write client AuthPath (w.getenv VaultRoleIdKey) (w.getenv VaultSecretIdKey) =
                  .ok (some resp) ∧ (resp.auth = none ∨ resp.auth = some ⟨""⟩) ∧
                  x = .logFatal "Vault Authentication failed"))) ∨
         ∃ tok, w.write client AuthPath (w.getenv VaultRoleIdKey) (w.getenv VaultSecretIdKey) =
              .ok (some ⟨some ⟨tok⟩⟩) ∧ tok ≠ "" ∧
           ((∃ msg, w.kvGet ⟨client.address, tok⟩ VaultSecretPath
                  (p.viper.GetString "vault.path" ++ env) = .error msg ∧ x = .logFatal msg ∧
                q.trace = p.trace ++ [.newClient addr,
                  .write client AuthPath (w.getenv VaultRoleIdKey) (w.getenv VaultSecretIdKey),
                  .setToken tok,
                  .kvGet ⟨client.address, tok⟩ VaultSecretPath
                    (p.viper.GetString "vault.path" ++ env)]) ∨
            ∃ data msg, w.kvGet ⟨client.address, tok⟩ VaultSecretPath
                  (p.viper.GetString "vault.path" ++ env) = .ok data ∧
                w.marshalIndent data = .error msg ∧ x = .logFatal msg ∧
                q.trace = p.trace ++ [.newClient addr,
                  .write client AuthPath (w.getenv VaultRoleIdKey) (w.getenv VaultSecretIdKey),
                  .setToken tok,
                  .kvGet ⟨client.address, tok⟩ VaultSecretPath
                    (p.viper.GetString "vault.path" ++ env),
                  .marshalIndent data])) := by
  simp only [getVaultConfigAsJson, getVaultClient, buildVaultEndpoint, bind_apply, pure_apply,
    andThen_done, getViper, emit] at h
  generalize h1 : w.newClient _ = x1 at h
  cases x1 with
  | error e =>
    simp only [terminate, andThen_exit, Res.exit.injEq] at h
    obtain ⟨rfl, rfl⟩ := h
    exact ⟨rfl, _, Or.inl ⟨e, h1, rfl, rfl⟩⟩
  | ok client =>
    simp only [bind_apply, pure_apply, andThen_done, andThen_exit, getViper, emit, terminate,
      modifyViper] at h
    generalize h2 : w.write _ _ _ _ = x2 at h
    rcases x2 with e | _ | ⟨_ | ⟨⟨tok⟩⟩⟩
    · simp only [terminate, andThen_exit, Res.exit.injEq] at h
      obtain ⟨rfl, rfl⟩ := h
      exact ⟨rfl, _, Or.inr ⟨client, h1, Or.inl ⟨by simp, Or.inl ⟨e, h2, rfl⟩⟩⟩⟩
    · simp only [terminate, andThen_exit, Res.exit.injEq] at h
      obtain ⟨rfl, rfl⟩ := h
      exact ⟨rfl, _, Or.inr ⟨client, h1, Or.inl ⟨by simp, Or.inr (Or.inl ⟨h2, rfl⟩)⟩⟩⟩
    · simp only [terminate, andThen_exit, Res.exit.injEq] at h
      obtain ⟨rfl, rfl⟩ := h
      exact ⟨rfl, _, Or.inr ⟨client, h1,
        Or.inl ⟨by simp, Or.inr (Or.inr ⟨_, h2, Or.inl rfl, rfl⟩)⟩⟩⟩
    · simp only [] at h
      split at h
      · rename_i htok
        simp only [terminate, andThen_exit, Res.exit.injEq] at h
        obtain ⟨rfl, rfl⟩ := h
        subst htok
        exact ⟨rfl, _, Or.inr ⟨client, h1,
          Or.inl ⟨by simp, Or.inr (Or.inr ⟨_, h2, Or.inr rfl, rfl⟩)⟩⟩⟩
      · rename_i htok
        simp only [bind_apply, pure_apply, andThen_done, andThen_exit, getViper, emit, terminate,
      modifyViper] at h
        generalize h3 : w.kvGet _ _ _ = x3 at h
        cases x3 with
        | error e =>
          simp only [terminate, Res.exit.injEq] at h
          obtain ⟨rfl, rfl⟩ := h
          exact ⟨rfl, _, Or.inr ⟨client, h1, Or.inr ⟨tok, h2, htok,
            Or.inl ⟨e, h3, rfl, by simp⟩⟩⟩⟩
        | ok data =>
          simp only [bind_apply, pure_apply, andThen_done, andThen_exit, getViper, emit, terminate,
      modifyViper] at h
          generalize h4 : w.marshalIndent _ = x4 at h
          cases x4 with
          | error e =>
            simp only [terminate, Res.exit.injEq] at h
            obtain ⟨rfl, rfl⟩ := h
            exact ⟨rfl, _, Or.inr ⟨client, h1, Or.inr ⟨tok, h2, htok,
              Or.inr ⟨data, e, h3, h4, rfl, by simp⟩⟩⟩⟩
          | ok j => simp [pure_apply] at h

/-- A terminated `loadLocalConfig`: the file read failed. -/
theorem loadLocalConfig_run (w : World) (p : Proc) :
    (∃ msg, w.readInConfig "config-local" "yaml" (addPath "resources" p.viper.configPaths) =
          .error msg ∧
        loadLocalConfig w p = .exit (.logFatal msg)
          ⟨⟨"config-local", "yaml", addPath "resources" p.viper.configPaths,
              p.viper.remoteProviders, p.viper.config, p.viper.kvstore⟩,
            p.trace ++ [.readInConfig "config-local" "yaml"
              (addPath "resources" p.viper.configPaths)]⟩) ∨
    (∃ doc, w.readInConfig "config-local" "yaml" (addPath "resources" p.viper.configPaths) =
          .ok doc ∧
        loadLocalConfig w p = .done ()
          ⟨⟨"config-local", "yaml", addPath "resources" p.viper.configPaths,
              p.viper.remoteProviders, doc, p.viper.kvstore⟩,
            p.trace ++ [.readInConfig "config-local" "yaml"
              (addPath "resources" p.viper.configPaths)]⟩) := by
  simp only [loadLocalConfig, SetConfigName, SetConfigType, AddConfigPath, ReadInConfig,
    bind_apply, pure_apply, andThen_done, andThen_exit, getViper, emit, terminate, modifyViper]
  cases h1 : w.readInConfig "config-local" "yaml" (addPath "resources" p.viper.configPaths) with
  | error e =>
    left
    exact ⟨e, rfl, rfl⟩
  | ok doc =>
    right
    exact ⟨doc, rfl, rfl⟩

/-- The provider the file registers is one viper supports. -/
theorem consul_supported : ConsulProvider ∈ SupportedRemoteProviders := by decide

/-- Registering the consul provider never returns an error. -/
theorem AddRemoteProvider_consul (endpoint path : String) (p : Proc) :
    AddRemoteProvider ConsulProvider endpoint path p =
      .done none
        ⟨{ p.viper with remoteProviders :=
              addProvider ⟨ConsulProvider, endpoint, path⟩ p.viper.remoteProviders },
          p.trace ++ [.addRemoteProvider ConsulProvider endpoint path]⟩ := by
  simp only [AddRemoteProvider, bind_apply, pure_apply, andThen_done, emit, modifyViper,
    consul_supported, not_true_eq_false, if_false]

/-- A successful `loadRemoteConfig`: what every call returned, the state `pv` in which
the secret store was contacted, and the two layers of the registry at the end. -/
theorem loadRemoteConfig_done (w : World) (env : String) (p q : Proc)
    (h : loadRemoteConfig w env p = .done () q) :
    ∃ base ep path rps kv pv json qv secret,
      w.readInConfig "config" "yaml" (addPath "resources" p.viper.configPaths) = .ok base ∧
      w.readRemoteConfig rps "yaml" = .ok kv ∧
      pv.viper.config = base ∧ pv.viper.kvstore = kv ++ p.viper.kvstore ∧
      pv.trace = p.trace ++
        [.readInConfig "config" "yaml" (addPath "resources" p.viper.configPaths),
         .addRemoteProvider ConsulProvider ep path, .readRemoteConfig rps "yaml"] ∧
      getVaultConfigAsJson w env pv = .done json qv ∧
      w.decode "json" json = .ok secret ∧
      q.trace = qv.trace ++ [.readConfig "json" json] ∧
      q.viper.config = secret ∧ q.viper.kvstore = kv ++ p.viper.kvstore := by
  simp only [loadRemoteConfig, loadEnvConfig, SetConfigName, SetConfigType, AddConfigPath,
    ReadInConfig, ReadRemoteConfig, ReadConfig, buildConsulEndpointAndPath,
    bind_apply, pure_apply, andThen_done, andThen_exit, getViper, emit, terminate,
    modifyViper] at h
  generalize h1 : w.readInConfig _ _ _ = x1 at h
  cases x1 with
  | error e => simp [terminate, andThen_exit, pure_apply, andThen_done] at h
  | ok base =>
    simp only [bind_apply, pure_apply, andThen_done, andThen_exit, getViper, emit, terminate,
      modifyViper, AddRemoteProvider_consul] at h
    generalize h3 : w.readRemoteConfig _ _ = x3 at h
    cases x3 with
    | error e => simp [terminate, andThen_exit, pure_apply, andThen_done] at h
    | ok kv =>
      simp only [bind_apply, pure_apply, andThen_done, andThen_exit, getViper, emit,
        terminate, modifyViper] at h
      generalize hv : getVaultConfigAsJson w env _ = rv at h
      cases rv with
      | exit e qv => simp [andThen_exit] at h
      | done json qv =>
        have hqv := getVaultConfigAsJson_done w env _ qv json hv
        obtain ⟨_, _, _, _, _, _, _, _, _, hvip, _⟩ := hqv
        simp only [bind_apply, pure_apply, andThen_done, andThen_exit, getViper, emit,
          terminate, modifyViper, hvip] at h
        generalize h4 : w.decode _ _ = x4 at h
        cases x4 with
        | error e => simp [terminate, andThen_exit, pure_apply, andThen_done] at h
        | ok secret =>
          simp only [bind_apply, pure_apply, andThen_done, modifyViper, Res.done.injEq,
            true_and] at h
          subst h
          exact ⟨base, _, _, _, kv, _, json, qv, secret, rfl, h3, rfl, rfl,
            by rw [List.append_assoc, List.append_assoc]; rfl, hv,
            h4, rfl, rfl, rfl⟩

/-- A terminated `loadRemoteConfig`: the step at which it stopped, what the earlier
calls returned, and the two layers of the registry at that point. -/
theorem loadRemoteConfig_exit (w : World) (env : String) (p q : Proc) (x : Exit)
    (h : loadRemoteConfig w env p = .exit x q) :
    (∃ msg, w.readInConfig "config" "yaml" (addPath "resources" p.viper.configPaths) =
          .error msg ∧ x = .logFatal msg ∧
        q.trace = p.trace ++
          [.readInConfig "config" "yaml" (addPath "resources" p.viper.configPaths)] ∧
        q.viper.config = p.viper.config ∧ q.viper.kvstore = p.viper.kvstore) ∨
    ∃ base ep path rps,
      w.readInConfig "config" "yaml" (addPath "resources" p.viper.configPaths) = .ok base ∧
      ((∃ msg, w.readRemoteConfig rps "yaml" = .error msg ∧ x = .logFatal msg ∧
          q.trace = p.trace ++
            [.readInConfig "config" "yaml" (addPath "resources" p.viper.configPaths),
             .addRemoteProvider ConsulProvider ep path, .readRemoteConfig rps "yaml"] ∧
          q.viper.config = base ∧ q.viper.kvstore = p.viper.kvstore) ∨
       ∃ kv pv, w.readRemoteConfig rps "yaml" = .ok kv ∧
        pv.viper.config = base ∧ pv.viper.kvstore = kv ++ p.viper.kvstore ∧
        pv.trace = p.trace ++
          [.readInConfig "config" "yaml" (addPath "resources" p.viper.configPaths),
           .addRemoteProvider ConsulProvider ep path, .readRemoteConfig rps "yaml"] ∧
        (getVaultConfigAsJson w env pv = .exit x q ∨
         ∃ json qv msg, getVaultConfigAsJson w env pv = .done json qv ∧
          w.decode "json" json = .error msg ∧ x = .logFatal msg ∧
          q.trace = qv.trace ++ [.readConfig "json" json] ∧
          q.viper.config = [] ∧ q.viper.kvstore = kv ++ p.viper.kvstore)) := by
  simp only [loadRemoteConfig, loadEnvConfig, SetConfigName, SetConfigType, AddConfigPath,
    ReadInConfig, ReadRemoteConfig, ReadConfig, buildConsulEndpointAndPath,
    bind_apply, pure_apply, andThen_done, andThen_exit, getViper, emit, terminate,
    modifyViper] at h
  generalize h1 : w.readInConfig _ _ _ = x1 at h
  cases x1 with
  | error e =>
    simp only [bind_apply, pure_apply, andThen_done, andThen_exit, terminate,
      Res.exit.injEq] at h
    obtain ⟨rfl, rfl⟩ := h
    exact Or.inl ⟨e, rfl, rfl, rfl, rfl, rfl⟩
  | ok base =>
    right
    simp only [bind_apply, pure_apply, andThen_done, andThen_exit, getViper, emit, terminate,
      modifyViper, AddRemoteProvider_consul] at h
    generalize h3 : w.readRemoteConfig _ _ = x3 at h
    cases x3 with
    | error e =>
      simp only [bind_apply, pure_apply, andThen_done, andThen_exit, terminate,
        Res.exit.injEq] at h
      obtain ⟨rfl, rfl⟩ := h
      exact ⟨base, _, _, _, rfl, Or.inl ⟨e, h3, rfl,
        by rw [List.append_assoc, List.append_assoc]; rfl, rfl, rfl⟩⟩
    | ok kv =>
      simp only [bind_apply, pure_apply, andThen_done, andThen_exit, getViper, emit,
        terminate, modifyViper] at h
      generalize hv : getVaultConfigAsJson w env _ = rv at h
      cases rv with
      | exit e qv =>
        simp only [andThen_exit, Res.exit.injEq] at h
        obtain ⟨rfl, rfl⟩ := h
        exact ⟨base, _, _, _, rfl, Or.inr ⟨kv, _, h3, rfl, rfl,
          by rw [List.append_assoc, List.append_assoc]; rfl, Or.inl hv⟩⟩
      | done json qv =>
        have hqv := getVaultConfigAsJson_done w env _ qv json hv
        obtain ⟨_, _, _, _, _, _, _, _, _, hvip, _⟩ := hqv
        simp only [bind_apply, pure_apply, andThen_done, andThen_exit, getViper, emit,
          terminate, modifyViper, hvip] at h
        generalize h4 : w.decode _ _ = x4 at h
        cases x4 with
        | error e =>
          simp only [bind_apply, pure_apply, andThen_done, andThen_exit, terminate,
            Res.exit.injEq] at h
          obtain ⟨rfl, rfl⟩ := h
          exact ⟨base, _, _, _, rfl, Or.inr ⟨kv, _, h3, rfl, rfl,
            by rw [List.append_assoc, List.append_assoc]; rfl,
            Or.inr ⟨json, qv, e, hv, h4, rfl, rfl, rfl, rfl⟩⟩⟩
        | ok secret =>
          simp [bind_apply, pure_apply, andThen_done, modifyViper] at h

/-- The calls recorded by a run of `loadRemoteConfig`, however it ends, together with
what they returned and the two layers of the registry at the end: the trace is an
initial segment of the nine calls of the pipeline and all calls before the last one
succeeded.  The alternatives, in order: the YAML read failed; the remote read failed;
the client could not be created; the run stopped at the login; the login went
through. -/
theorem loadRemoteConfig_stages (w : World) (env : String) (v : Viper) :
    ∃ ep path rps,
      (∃ msg, w.readInConfig "config" "yaml" (addPath "resources" v.configPaths) = .error msg ∧
        (loadRemoteConfig w env ⟨v, []⟩).exit? = some (.logFatal msg) ∧
        (loadRemoteConfig w env ⟨v, []⟩).proc.trace =
          [.readInConfig "config" "yaml" (addPath "resources" v.configPaths)] ∧
        (loadRemoteConfig w env ⟨v, []⟩).proc.viper.config = v.config ∧
        (loadRemoteConfig w env ⟨v, []⟩).proc.viper.kvstore = v.kvstore) ∨
      ∃ base, w.readInConfig "config" "yaml" (addPath "resources" v.configPaths) = .ok base ∧
        ((∃ msg, w.readRemoteConfig rps "yaml" = .error msg ∧
          (loadRemoteConfig w env ⟨v, []⟩).exit? = some (.logFatal msg) ∧
          (loadRemoteConfig w env ⟨v, []⟩).proc.trace =
            [.readInConfig "config" "yaml" (addPath "resources" v.configPaths),
             .addRemoteProvider ConsulProvider ep path, .readRemoteConfig rps "yaml"] ∧
          (loadRemoteConfig w env ⟨v, []⟩).proc.viper.config = base ∧
          (loadRemoteConfig w env ⟨v, []⟩).proc.viper.kvstore = v.kvstore) ∨
         ∃ kv addr, w.readRemoteConfig rps "yaml" = .ok kv ∧
          ((∃ msg, w.newClient addr = .error msg ∧
            (loadRemoteConfig w env ⟨v, []⟩).proc.trace =
              [.readInConfig "config" "yaml" (addPath "resources" v.configPaths),
               .addRemoteProvider ConsulProvider ep path, .readRemoteConfig rps "yaml",
               .newClient addr]) ∨
           ∃ client, w.newClient addr = .ok client ∧
            (((loadRemoteConfig w env ⟨v, []⟩).proc.trace =
                [.readInConfig "config" "yaml" (addPath "resources" v.configPaths),
                 .addRemoteProvider ConsulProvider ep path, .readRemoteConfig rps "yaml",
                 .newClient addr,
                 .write client AuthPath (w.getenv VaultRoleIdKey) (w.getenv VaultSecretIdKey)] ∧
              (loadRemoteConfig w env ⟨v, []⟩).proc.viper.config = base ∧
              (loadRemoteConfig w env ⟨v, []⟩).proc.viper.kvstore = kv ++ v.kvstore ∧
              ∀ msg, w.write client AuthPath (w.getenv VaultRoleIdKey)
                  (w.getenv VaultSecretIdKey) = .error msg →
                (loadRemoteConfig w env ⟨v, []⟩).exit? = some (.logFatal msg)) ∨
             ∃ tok rest, w.write client AuthPath (w.getenv VaultRoleIdKey)
                  (w.getenv VaultSecretIdKey) = .ok (some ⟨some ⟨tok⟩⟩) ∧
              (loadRemoteConfig w env ⟨v, []⟩).proc.trace =
                [.readInConfig "config" "yaml" (addPath "resources" v.configPaths),
                 .addRemoteProvider ConsulProvider ep path, .readRemoteConfig rps "yaml",
                 .newClient addr,
                 .write client AuthPath (w.getenv VaultRoleIdKey) (w.getenv VaultSecretIdKey),
                 .setToken tok] ++ rest ∧
              ∀ e ∈ rest, (∃ c m s, e = .kvGet c m s) ∨ (∃ d, e = .marshalIndent d) ∨
                ∃ t j, e = .readConfig t j))) := by
  generalize hr : loadRemoteConfig w env ⟨v, []⟩ = r
  cases r with
  | done u q =>
    obtain ⟨base, ep, path, rps, kv, pv, json, qv, secret, h1, h3, -, -, hpv, hv, h4, hq,
      -, -⟩ := loadRemoteConfig_done w _ _ q hr
    obtain ⟨addr, client, tok, data, h5, h6, -, h7, h8, -, hqv⟩ :=
      getVaultConfigAsJson_done w _ pv qv json hv
    refine ⟨ep, path, rps, Or.inr ⟨base, h1, Or.inr ⟨kv, addr, h3,
      Or.inr ⟨client, h5, Or.inr ⟨tok, _, h6, by simp [Res.proc, hq, hqv, hpv]; rfl, ?_⟩⟩⟩⟩⟩
    intro e he
    simp only [List.mem_cons, List.mem_singleton, List.not_mem_nil, or_false] at he
    rcases he with rfl | rfl | rfl
    · exact Or.inl ⟨_, _, _, rfl⟩
    · exact Or.inr (Or.inl ⟨_, rfl⟩)
    · exact Or.inr (Or.inr ⟨_, _, rfl⟩)
  | exit x q =>
    rcases loadRemoteConfig_exit w _ _ q x hr with
      ⟨msg, h1, rfl, ht, hc, hk⟩ | ⟨base, ep, path, rps, h1, hrest⟩
    · exact ⟨"", "", [], Or.inl ⟨msg, h1, rfl, by simpa using ht, hc, hk⟩⟩
    · refine ⟨ep, path, rps, Or.inr ⟨base, h1, ?_⟩⟩
      rcases hrest with ⟨msg, h3, rfl, ht, hc, hk⟩ | ⟨kv, pv, h3, hpc, hpk, hpv, hrest⟩
      · exact Or.inl ⟨msg, h3, rfl, by simpa using ht, hc, hk⟩
      · right
        rcases hrest with hv | ⟨json, qv, msg, hv, h4, rfl, ht, -, -⟩
        · obtain ⟨hvip, addr, hvault⟩ := getVaultConfigAsJson_exit w _ pv q x hv
          refine ⟨kv, addr, h3, ?_⟩
          rcases hvault with ⟨msg, h5, rfl, ht⟩ | ⟨client, h5, hvault⟩
          · exact Or.inl ⟨msg, h5, by simp [Res.proc, ht, hpv]⟩
          · refine Or.inr ⟨client, h5, ?_⟩
            rcases hvault with ⟨ht, hw⟩ | ⟨tok, h6, -, hvault⟩
            · refine Or.inl ⟨by simp [Res.proc, ht, hpv], by simp [Res.proc, hvip, hpc],
                by simp [Res.proc, hvip, hpk], ?_⟩
              intro msg hmsg
              rcases hw with ⟨m, h6, rfl⟩ | ⟨h6, -⟩ | ⟨resp, h6, -, -⟩
              · rw [h6] at hmsg
                cases hmsg
                rfl
              · rw [h6] at hmsg
                cases hmsg
              · rw [h6] at hmsg
                cases hmsg
            · refine Or.inr ⟨tok, ?_, h6, ?_⟩
              · exact (q.trace.drop 6)
              · rcases hvault with ⟨msg, h7, rfl, ht⟩ | ⟨data, msg, h7, h8, rfl, ht⟩
                · refine ⟨by simp [Res.proc, ht, hpv], ?_⟩
                  intro e he
                  simp [ht, hpv] at he
                  exact Or.inl ⟨_, _, _, he⟩
                · refine ⟨by simp [Res.proc, ht, hpv], ?_⟩
                  intro e he
                  simp [ht, hpv] at he
                  rcases he with rfl | rfl
                  · exact Or.inl ⟨_, _, _, rfl⟩
                  · exact Or.inr (Or.inl ⟨_, rfl⟩)
        · obtain ⟨addr, client, tok, data, h5, h6, -, h7, h8, -, hqv⟩ :=
            getVaultConfigAsJson_done w _ pv qv json hv
          refine ⟨kv, addr, h3, Or.inr ⟨client, h5, Or.inr ⟨tok, q.trace.drop 6, h6,
            by simp [Res.proc, ht, hqv, hpv], ?_⟩⟩⟩
          intro e he
          simp [ht, hqv, hpv] at he
          rcases he with rfl | rfl | rfl
          · exact Or.inl ⟨_, _, _, rfl⟩
          · exact Or.inr (Or.inl ⟨_, rfl⟩)
          · exact Or.inr (Or.inr ⟨_, _, rfl⟩)

/-- A terminated run of `loadConfig` stops right after the call that made it stop:
that call is the last one recorded and every earlier call returned no error.  Either
the last call returned an error, which is logged by `log.Fatal`; or the last call is
the login, which returned no error but no usable response: a nil response (nil
pointer dereference) or a response without client token (`log.Fatal`). -/
theorem loadConfig_exit_last (w : World) (v : Viper) (x : Exit) (q : Proc)
    (hrun : loadConfig w ⟨v, []⟩ = .exit x q) :
    ∃ pre last, q.trace = pre ++ [last] ∧ (∀ e ∈ pre, callError w e = none) ∧
      ((∃ msg, callError w last = some msg ∧ x = .logFatal msg) ∨
       (∃ client path roleId secretId, last = .write client path roleId secretId ∧
          ((w.write client path roleId secretId = .ok none ∧ x = .nilDereference) ∨
           (∃ resp, w.write client path roleId secretId = .ok (some resp) ∧
              (resp.auth = none ∨ resp.auth = some ⟨""⟩) ∧
              x = .logFatal "Vault Authentication failed")))) := by
  by_cases henv : w.getenv "APP_ENV" = "local"
  · simp only [loadConfig, henv, if_true] at hrun
    rcases loadLocalConfig_run w ⟨v, []⟩ with ⟨msg, h1, hr⟩ | ⟨doc, -, hr⟩
    · rw [hr] at hrun
      simp only [Res.exit.injEq] at hrun
      obtain ⟨rfl, rfl⟩ := hrun
      exact ⟨[], _, rfl, by simp, Or.inl ⟨msg, by simp [callError, h1], rfl⟩⟩
    · rw [hr] at hrun
      cases hrun
  · simp only [loadConfig, henv, if_false] at hrun
    rcases loadRemoteConfig_exit w _ _ q x hrun with
      ⟨msg, h1, rfl, ht, -, -⟩ | ⟨base, ep, path, rps, h1, hrest⟩
    · exact ⟨[], _, ht, by simp, Or.inl ⟨msg, by simp [callError, h1], rfl⟩⟩
    · rcases hrest with ⟨msg, h3, rfl, ht, -, -⟩ | ⟨kv, pv, h3, -, -, hpv, hrest⟩
      · exact ⟨[_, _], _, ht, by simp [callError, h1, consul_supported],
          Or.inl ⟨msg, by simp [callError, h3], rfl⟩⟩
      · rcases hrest with hv | ⟨json, qv, msg, hv, h4, rfl, ht, -, -⟩
        · obtain ⟨-, addr, hvault⟩ := getVaultConfigAsJson_exit w _ pv q x hv
          rcases hvault with ⟨msg, h5, rfl, ht⟩ | ⟨client, h5, hvault⟩
          · exact ⟨pv.trace, _, ht, by simp [hpv, callError, h1, h3, consul_supported],
              Or.inl ⟨msg, by simp [callError, h5], rfl⟩⟩
          · rcases hvault with ⟨ht, hw⟩ | ⟨tok, h6, -, hvault⟩
            · refine ⟨pv.trace ++ [.newClient addr],
                .write client AuthPath (w.getenv VaultRoleIdKey) (w.getenv VaultSecretIdKey),
                by simp [ht],
                by simp [hpv, callError, h1, h3, h5, consul_supported], ?_⟩
              rcases hw with ⟨msg, h6, rfl⟩ | ⟨h6, rfl⟩ | ⟨resp, h6, hresp, rfl⟩
              · exact Or.inl ⟨msg, by simp [callError, h6], rfl⟩
              · exact Or.inr ⟨_, _, _, _, rfl, Or.inl ⟨h6, rfl⟩⟩
              · exact Or.inr ⟨_, _, _, _, rfl, Or.inr ⟨resp, h6, hresp, rfl⟩⟩
            · rcases hvault with ⟨msg, h7, rfl, ht⟩ | ⟨data, msg, h7, h8, rfl, ht⟩
              · exact ⟨pv.trace ++ [.newClient addr, .write client AuthPath
                    (w.getenv VaultRoleIdKey) (w.getenv VaultSecretIdKey), .setToken tok],
                  .kvGet ⟨client.address, tok⟩ VaultSecretPath
                      (pv.viper.GetString "vault.path" ++ w.getenv "APP_ENV"),
                  by simp [ht], by simp [hpv, callError, h1, h3, h5, h6, consul_supported],
                  Or.inl ⟨msg, by simp [callError, h7], rfl⟩⟩
              · exact ⟨pv.trace ++ [.newClient addr, .write client AuthPath
                    (w.getenv VaultRoleIdKey) (w.getenv VaultSecretIdKey), .setToken tok,
                    .kvGet ⟨client.address, tok⟩ VaultSecretPath
                      (pv.viper.GetString "vault.path" ++ w.getenv "APP_ENV")],
                  .marshalIndent data,
                  by simp [ht],
                  by simp [hpv, callError, h1, h3, h5, h6, h7, consul_supported],
                  Or.inl ⟨msg, by simp [callError, h8], rfl⟩⟩
        · obtain ⟨addr, client, tok, data, h5, h6, -, h7, h8, -, hqv⟩ :=
            getVaultConfigAsJson_done w _ pv qv json hv
          exact ⟨qv.trace, _, ht,
            by simp [hqv, hpv, callError, h1, h3, h5, h6, h7, h8, consul_supported],
            Or.inl ⟨msg, by simp [callError, h4], rfl⟩⟩

/-- In a run of `loadConfig` that returns, every recorded call returned no error. -/
theorem loadConfig_done_calls (w : World) (v : Viper) (q : Proc)
    (hrun : loadConfig w ⟨v, []⟩ = .done () q) :
    ∀ e ∈ q.trace, callError w e = none := by
  intro e he
  by_cases henv : w.getenv "APP_ENV" = "local"
  · simp only [loadConfig, henv, if_true] at hrun
    rcases loadLocalConfig_run w ⟨v, []⟩ with ⟨msg, -, hr⟩ | ⟨doc, h1, hr⟩
    · rw [hr] at hrun
      cases hrun
    · rw [hr] at hrun
      simp only [Res.done.injEq, true_and] at hrun
      subst hrun
      simp only [List.nil_append, List.mem_singleton] at he
      subst he
      simp [callError, h1]
  · simp only [loadConfig, henv, if_false] at hrun
    obtain ⟨base, ep, path, rps, kv, pv, json, qv, secret, h1, h3, -, -, hpv, hv, h4, hq,
      -, -⟩ := loadRemoteConfig_done w _ _ q hrun
    obtain ⟨addr, client, tok, data, h5, h6, -, h7, h8, -, hqv⟩ :=
      getVaultConfigAsJson_done w _ pv qv json hv
    simp only [hq, hqv, hpv, List.nil_append, List.mem_append, List.mem_cons,
      List.mem_singleton, List.not_mem_nil, or_false] at he
    rcases he with ((rfl | rfl | rfl) | rfl | rfl | rfl | rfl | rfl) | rfl <;>
      simp [callError, h1, h3, h4, h5, h6, h7, h8, consul_supported]

/-- A run of `loadConfig` is never terminated by the `panic` of line 61: the provider
it registers is one viper supports. -/
theorem loadConfig_never_panics (w : World) (v : Viper) (msg : String) :
    (loadConfig w ⟨v, []⟩).exit? ≠ some (.panic msg) := by
  intro hx
  cases hr : loadConfig w ⟨v, []⟩ with
  | done u q => rw [hr] at hx; cases hx
  | exit x q =>
    rw [hr] at hx
    simp only [Res.exit?, Option.some.injEq] at hx
    subst hx
    obtain ⟨pre, last, -, -, hlast⟩ := loadConfig_exit_last w v _ q hr
    rcases hlast with ⟨m, -, hm⟩ | ⟨c, pth, r, s, -, (⟨-, hm⟩ | ⟨resp, -, -, hm⟩)⟩ <;> cases hm

/-! ## The lookup: basic facts -/

/-- The loop of the configuration-layer search only uses the recursive search on
proper final parts of the path. -/
theorem searchLoop_congr (s1 s2 : Doc → List String → Option Value) (source : Doc)
    (path : List String)
    (h : ∀ sub j, 1 ≤ j → j < path.length → s1 sub (path.drop j) = s2 sub (path.drop j))
    (i : Nat) (hi : i ≤ path.length) :
    searchLoop s1 source path i = searchLoop s2 source path i := by
  induction i with
  | zero => rfl
  | succ i ih =>
    have hstep :
        searchMapWithPathPrefixes s1 source (lowerKey (pathKey path (i + 1))) (i + 1) path =
        searchMapWithPathPrefixes s2 source (lowerKey (pathKey path (i + 1))) (i + 1) path := by
      unfold searchMapWithPathPrefixes
      cases source.lookup (lowerKey (pathKey path (i + 1))) with
      | none => rfl
      | some next =>
        by_cases hlen : i + 1 = path.length
        · simp [hlen]
        · simp only [hlen, if_false]
          cases next with
          | map sub => exact h sub (i + 1) (by omega) (by omega)
          | _ => rfl
    simp only [searchLoop, hstep, ih (by omega)]

/-- One more unit of fuel changes nothing once the fuel covers the path. -/
theorem searchIndexable_fuel_succ (fuel : Nat) :
    ∀ (source : Doc) (path : List String), path.length ≤ fuel →
      searchIndexableWithPathPrefixes (fuel + 1) source path =
        searchIndexableWithPathPrefixes fuel source path := by
  induction fuel with
  | zero =>
    intro source path hlen
    cases path with
    | nil => rfl
    | cons k rest => simp at hlen
  | succ fuel ih =>
    intro source path hlen
    cases path with
    | nil => rfl
    | cons k rest =>
      simp only [searchIndexableWithPathPrefixes]
      apply searchLoop_congr
      · intro sub j hj1 hj2
        apply ih
        simp only [List.length_drop, List.length_cons] at hlen hj2 ⊢
        omega
      · exact Nat.le_refl _

/-- The length of the path is enough fuel: any larger amount gives the same result. -/
theorem searchIndexable_fuel (source : Doc) (path : List String) (extra : Nat) :
    searchIndexableWithPathPrefixes (path.length + extra) source path =
      searchIndexableWithPathPrefixes path.length source path := by
  induction extra with
  | zero => rfl
  | succ n ih =>
    rw [← ih]
    exact searchIndexable_fuel_succ (path.length + n) source path (by omega)

/-- The key/value search of a document laid over another one follows the upper
document wherever the upper document has the first key of the path. -/
theorem searchMap_append_of_some (kv old : Doc) (path : List String) (x : Value)
    (hpath : path ≠ []) (h : searchMap kv path = some x) :
    searchMap (kv ++ old) path = some x := by
  cases path with
  | nil => exact absurd rfl hpath
  | cons key rest =>
    unfold searchMap at h ⊢
    cases hk : kv.lookup key with
    | none => simp [hk] at h
    | some next =>
      rw [hk] at h
      rw [List.lookup_append, hk]
      exact h

/-- A path of at most one element is never shadowed. -/
theorem isPathShadowed_short (path : List String) (m : Doc) (h : path.length ≤ 1) :
    isPathShadowedInDeepMap path m = "" := by
  unfold isPathShadowedInDeepMap
  have : path.length - 1 = 0 := by omega
  rw [this]
  rfl

/-- The registry's value for a path the configuration layer has a value for. -/
theorem find_of_config (v : Viper) (path : List String) (x : Value)
    (h : Doc.configValue v.config path = some x) : v.find path = some x := by
  simp only [Doc.configValue] at h
  simp only [Viper.find, h]

/-- The registry's value for a path the configuration layer neither has a value for
nor shadows: what the key/value layer gives. -/
theorem find_of_kv (v : Viper) (path : List String)
    (h : Doc.configValue v.config path = none)
    (hs : isPathShadowedInDeepMap path v.config = "") :
    v.find path = Doc.kvValue v.kvstore path := by
  simp only [Doc.configValue] at h
  simp only [Viper.find, h, hs, ne_eq, not_true_eq_false, and_false, if_false, Doc.kvValue]

/-- The registry has no value for a path the configuration layer has no value for
but shadows. -/
theorem find_of_shadowed (v : Viper) (path : List String)
    (h : Doc.configValue v.config path = none)
    (hs : isPathShadowedInDeepMap path v.config ≠ "") :
    v.find path = none := by
  have hlen : 1 < path.length := by
    by_contra hc
    exact hs (isPathShadowed_short path v.config (by omega))
  simp only [Doc.configValue] at h
  simp only [Viper.find, h, hlen, hs, ne_eq, not_false_eq_true, and_self, if_true]

/-! ## The claims -/

/-- Claim C1. With `APP_ENV` equal to `"local"`, a run of `loadConfig` makes exactly one
library call, the read of the YAML file named `config-local` searched in a path list
that contains `resources`; no remote provider is registered or read, no Vault client
is created, no login and no secret read happen; this holds whether the read succeeds
or fails. -/
theorem loadConfig_local_only_local_yaml (w : World) (v : Viper)
    (h : w.getenv "APP_ENV" = "local") :
    (loadConfig w ⟨v, []⟩).proc.trace =
        [.readInConfig "config-local" "yaml" (addPath "resources" v.configPaths)] ∧
      "resources" ∈ addPath "resources" v.configPaths ∧
      (loadConfig w ⟨v, []⟩).proc.viper.remoteProviders = v.remoteProviders := by
  have hrun := loadLocalConfig_run w ⟨v, []⟩
  have hmem : "resources" ∈ addPath "resources" v.configPaths := by
    unfold addPath
    split
    · simp
    · rename_i hn
      by_contra hc
      exact hn ⟨by decide, hc⟩
  simp only [loadConfig, h, if_true]
  rcases hrun with ⟨msg, _, hr⟩ | ⟨doc, _, hr⟩ <;> rw [hr] <;> exact ⟨by simp [Res.proc], hmem, rfl⟩

theorem loadConfig_local_only_local_yaml_witness :
    (sampleWorld "local").getenv "APP_ENV" = "local" ∧
    ((loadConfig (sampleWorld "local") ⟨Viper.fresh, []⟩).proc.trace =
        [.readInConfig "config-local" "yaml" (addPath "resources" Viper.fresh.configPaths)] ∧
      "resources" ∈ addPath "resources" Viper.fresh.configPaths ∧
      (loadConfig (sampleWorld "local") ⟨Viper.fresh, []⟩).proc.viper.remoteProviders =
        Viper.fresh.remoteProviders) :=
  ⟨by decide, loadConfig_local_only_local_yaml (sampleWorld "local") Viper.fresh (by decide)⟩

/-- Claim C2. With `APP_ENV` different from `"local"` (the empty value of an unset variable
and a spelling such as `"Local"` included), a run of `loadConfig` in which every call
made returns no error and the login made returns a non-empty client token runs to the
end, and its calls are, in this order and no others: the read of the YAML file named
`config`, the registration of the consul provider, the read of the remote store, the
creation of the Vault client, the login, setting the token, the secret read, the JSON
serialisation, and last the load of the JSON text into the registry. -/
theorem loadConfig_remote_order (w : World) (v : Viper)
    (henv : w.getenv "APP_ENV" ≠ "local")
    (hcalls : ∀ e ∈ (loadConfig w ⟨v, []⟩).proc.trace, callError w e = none)
    (hlogin : ∀ client path roleId secretId,
      .write client path roleId secretId ∈ (loadConfig w ⟨v, []⟩).proc.trace →
      ∃ tok, tok ≠ "" ∧ w.write client path roleId secretId = .ok (some ⟨some ⟨tok⟩⟩)) :
    (loadConfig w ⟨v, []⟩).exit? = none ∧
    ∃ ep path rps addr client tok spath data json,
      (loadConfig w ⟨v, []⟩).proc.trace =
        [.readInConfig "config" "yaml" (addPath "resources" v.configPaths),
         .addRemoteProvider ConsulProvider ep path,
         .readRemoteConfig rps "yaml",
         .newClient addr,
         .write client AuthPath (w.getenv VaultRoleIdKey) (w.getenv VaultSecretIdKey),
         .setToken tok,
         .kvGet ⟨client.address, tok⟩ VaultSecretPath spath,
         .marshalIndent data,
         .readConfig "json" json] := by
  cases hr : loadConfig w ⟨v, []⟩ with
  | exit x q =>
    exfalso
    rw [hr] at hcalls hlogin
    obtain ⟨pre, last, ht, -, hlast⟩ := loadConfig_exit_last w v x q hr
    have hmem : last ∈ q.trace := by simp [ht]
    rcases hlast with ⟨msg, hmsg, -⟩ | ⟨client, path, roleId, secretId, rfl, hw⟩
    · have := hcalls last hmem
      rw [hmsg] at this
      cases this
    · obtain ⟨tok, htok, hok⟩ := hlogin client path roleId secretId hmem
      rcases hw with ⟨hnil, -⟩ | ⟨resp, hresp, hauth, -⟩
      · rw [hok] at hnil
        cases hnil
      · rw [hok] at hresp
        simp only [Except.ok.injEq, Option.some.injEq] at hresp
        subst hresp
        rcases hauth with hauth | hauth
        · cases hauth
        · simp only [Option.some.injEq, SecretAuth.mk.injEq] at hauth
          exact htok hauth
  | done u q =>
    refine ⟨rfl, ?_⟩
    simp only [loadConfig, henv, if_false] at hr
    obtain ⟨base, ep, path, rps, kv, pv, json, qv, secret, -, -, -, -, hpv, hv, -, hq, -, -⟩ :=
      loadRemoteConfig_done w _ _ q hr
    obtain ⟨addr, client, tok, data, -, -, -, -, -, -, hqv⟩ :=
      getVaultConfigAsJson_done w _ pv qv json hv
    refine ⟨ep, path, rps, addr, client, tok,
      pv.viper.GetString "vault.path" ++ w.getenv "APP_ENV", data, json, ?_⟩
    simp [Res.proc, hq, hqv, hpv]

theorem loadConfig_remote_order_witness :
    (sampleWorld "Local").getenv "APP_ENV" ≠ "local" ∧
    (∀ e ∈ (loadConfig (sampleWorld "Local") ⟨Viper.fresh, []⟩).proc.trace,
      callError (sampleWorld "Local") e = none) ∧
    (loadConfig (sampleWorld "Local") ⟨Viper.fresh, []⟩).exit? = none ∧
    ∃ ep path rps addr client tok spath data json,
      (loadConfig (sampleWorld "Local") ⟨Viper.fresh, []⟩).proc.trace =
        [.readInConfig "config" "yaml" (addPath "resources" Viper.fresh.configPaths),
         .addRemoteProvider ConsulProvider ep path,
         .readRemoteConfig rps "yaml",
         .newClient addr,
         .write client AuthPath ((sampleWorld "Local").getenv VaultRoleIdKey)
           ((sampleWorld "Local").getenv VaultSecretIdKey),
         .setToken tok,
         .kvGet ⟨client.address, tok⟩ VaultSecretPath spath,
         .marshalIndent data,
         .readConfig "json" json] := by
  have hcalls : ∀ e ∈ (loadConfig (sampleWorld "Local") ⟨Viper.fresh, []⟩).proc.trace,
      callError (sampleWorld "Local") e = none := by decide
  have ht : (loadConfig (sampleWorld "Local") ⟨Viper.fresh, []⟩).proc.trace =
      [.readInConfig "config" "yaml" ["resources"],
       .addRemoteProvider "consul" "consul.internal:8500" "apps/orders/Local",
       .readRemoteConfig [⟨"consul", "consul.internal:8500", "apps/orders/Local"⟩] "yaml",
       .newClient "https://vault.internal:8200",
       .write ⟨"https://vault.internal:8200", ""⟩ "auth/approle/login" "role-1" "secret-1",
       .setToken "s.token",
       .kvGet ⟨"https://vault.internal:8200", "s.token"⟩ "/secret" "orders/Local",
       .marshalIndent sampleSecret,
       .readConfig "json" "secret-json"] := by decide
  exact ⟨by decide, hcalls,
    loadConfig_remote_order (sampleWorld "Local") Viper.fresh (by decide) hcalls (by
      intro client path roleId secretId hmem
      rw [ht] at hmem
      simp only [List.mem_cons, List.mem_singleton, Event.write.injEq, List.not_mem_nil,
        or_false, false_or, reduceCtorEq] at hmem
      obtain ⟨rfl, rfl, rfl, rfl⟩ := hmem
      exact ⟨"s.token", by decide, rfl⟩)⟩

/-- Claim C3, as the claim states it, fails: with the string `offline` stored under `db`
in the secret document, the run succeeds, the key `db.url` is set by the base YAML
file and by the key/value store and does not occur in the secret document, and yet
the registry has no value for it: the string under `db` in the configuration layer
shadows the key/value layer. -/
theorem loadRemoteConfig_shadowed_key_lost :
    (loadRemoteConfig scalarSecretWorld "dev" Proc.start).exit? = none ∧
    scalarSecretWorld.readInConfig "config" "yaml" ["resources"] = .ok sampleYaml ∧
    scalarSecretWorld.readRemoteConfig
        [⟨"consul", "consul.internal:8500", "apps/orders/dev"⟩] "yaml" = .ok sampleKv ∧
    scalarSecretWorld.decode "json" "secret-json" = .ok scalarSecret ∧
    sampleYaml.configValue ["db", "url"] = some (.str "yaml-db") ∧
    sampleKv.kvValue ["db", "url"] = some (.str "kv-db") ∧
    scalarSecret.configValue ["db", "url"] = none ∧
    (loadRemoteConfig scalarSecretWorld "dev" Proc.start).proc.viper.config = scalarSecret ∧
    (loadRemoteConfig scalarSecretWorld "dev" Proc.start).proc.viper.kvstore = sampleKv ∧
    (loadRemoteConfig scalarSecretWorld "dev" Proc.start).proc.viper.find ["db", "url"] = none ∧
    (loadRemoteConfig scalarSecretWorld "dev" Proc.start).proc.viper.Get "db.url" = none :=
  ⟨by decide, rfl, rfl, rfl, by decide, by decide, by decide, by decide, by decide, by decide,
    by decide⟩

/-- Claim C3, amended. After a successful `loadRemoteConfig`, with `base` the decoded YAML
file, `kv` the document read from the key/value store and `secret` the secret
document as loaded (the decoded JSON serialisation of the payload of the secret
read): a key path that has a value (one that is not null) in all three has the value
of `secret` in the registry; and a key path that has a value in `base` and in `kv`,
has none in `secret` and is not shadowed by `secret` (no proper initial part of the
path holds a value there that is not a map) has the value of `kv` in the registry. -/
theorem loadRemoteConfig_precedence (w : World) (env : String) (p q : Proc)
    (h : loadRemoteConfig w env p = .done () q) :
    ∃ base kv secret : Doc,
      w.readInConfig "config" "yaml" (addPath "resources" p.viper.configPaths) = .ok base ∧
      (∃ rps, w.readRemoteConfig rps "yaml" = .ok kv ∧ .readRemoteConfig rps "yaml" ∈ q.trace) ∧
      (∃ client spath data json, w.kvGet client VaultSecretPath spath = .ok data ∧
        .kvGet client VaultSecretPath spath ∈ q.trace ∧
        w.marshalIndent data = .ok json ∧ w.decode "json" json = .ok secret) ∧
      (∀ path b k s, base.configValue path = some b → kv.kvValue path = some k →
        secret.configValue path = some s → q.viper.find path = some s) ∧
      (∀ path b k, base.configValue path = some b → kv.kvValue path = some k →
        secret.configValue path = none → isPathShadowedInDeepMap path secret = "" →
        q.viper.find path = some k) := by
  obtain ⟨base, ep, path, rps, kv, pv, json, qv, secret, h1, h3, -, -, hpv, hv, h4, hq, hc, hk⟩ :=
    loadRemoteConfig_done w env p q h
  obtain ⟨addr, client, tok, data, -, -, -, h5, h6, -, hqv⟩ :=
    getVaultConfigAsJson_done w env pv qv json hv
  refine ⟨base, kv, secret, h1, ⟨rps, h3, ?_⟩, ⟨_, _, data, json, h5, ?_, h6, h4⟩, ?_, ?_⟩
  · simp [hq, hqv, hpv]
  · simp [hq, hqv]
  · intro path b k s _ _ hs
    exact find_of_config q.viper path s (by rw [hc]; exact hs)
  · intro path b k _ hkv hs hsh
    have hne : path ≠ [] := by
      rintro rfl
      simp [Doc.configValue, searchIndexableWithPathPrefixes] at hs
    rw [find_of_kv q.viper path (by rw [hc]; exact hs) (by rw [hc]; exact hsh), hk]
    exact searchMap_append_of_some kv p.viper.kvstore path k hne hkv

theorem loadRemoteConfig_precedence_witness :
    loadRemoteConfig (sampleWorld "dev") "dev" Proc.start =
        .done () (loadRemoteConfig (sampleWorld "dev") "dev" Proc.start).proc ∧
    sampleYaml.configValue ["cache", "ttl"] = some (.int 10) ∧
    sampleKv.kvValue ["cache", "ttl"] = some (.int 60) ∧
    sampleSecret.configValue ["cache", "ttl"] = none ∧
    isPathShadowedInDeepMap ["cache", "ttl"] sampleSecret = "" ∧
    (loadRemoteConfig (sampleWorld "dev") "dev" Proc.start).proc.viper.find ["cache", "ttl"] =
      some (.int 60) ∧
    sampleSecret.configValue ["db", "url"] = some (.str "secret-db") ∧
    (loadRemoteConfig (sampleWorld "dev") "dev" Proc.start).proc.viper.find ["db", "url"] =
      some (.str "secret-db") ∧
    ∃ base kv secret : Doc,
      (sampleWorld "dev").readInConfig "config" "yaml"
          (addPath "resources" Proc.start.viper.configPaths) = .ok base ∧
      (∃ rps, (sampleWorld "dev").readRemoteConfig rps "yaml" = .ok kv ∧
        .readRemoteConfig rps "yaml" ∈
          (loadRemoteConfig (sampleWorld "dev") "dev" Proc.start).proc.trace) ∧
      (∃ client spath data json,
        (sampleWorld "dev").kvGet client VaultSecretPath spath = .ok data ∧
        .kvGet client VaultSecretPath spath ∈
          (loadRemoteConfig (sampleWorld "dev") "dev" Proc.start).proc.trace ∧
        (sampleWorld "dev").marshalIndent data = .ok json ∧
        (sampleWorld "dev").decode "json" json = .ok secret) ∧
      (∀ path b k s, base.configValue path = some b → kv.kvValue path = some k →
        secret.configValue path = some s →
        (loadRemoteConfig (sampleWorld "dev") "dev" Proc.start).proc.viper.find path = some s) ∧
      (∀ path b k, base.configValue path = some b → kv.kvValue path = some k →
        secret.configValue path = none → isPathShadowedInDeepMap path secret = "" →
        (loadRemoteConfig (sampleWorld "dev") "dev" Proc.start).proc.viper.find path =
          some k) :=
  ⟨by decide, by decide, by decide, by decide, by decide, by decide, by decide, by decide,
    loadRemoteConfig_precedence (sampleWorld "dev") "dev" Proc.start _ (by decide)⟩

/-- Claim C4, as the claim states it, fails: in the sample deployment the run succeeds, the
key `app.name` is set by the base YAML file and occurs neither in the secret document
nor in the key/value store, and after the run the registry has no value for it. -/
theorem loadRemoteConfig_base_key_lost :
    (loadRemoteConfig (sampleWorld "dev") "dev" Proc.start).exit? = none ∧
    (sampleWorld "dev").readInConfig "config" "yaml" ["resources"] = .ok sampleYaml ∧
    sampleYaml.configValue ["app", "name"] = some (.str "orders") ∧
    sampleSecret.configValue ["app", "name"] = none ∧
    isPathShadowedInDeepMap ["app", "name"] sampleSecret = "" ∧
    (loadRemoteConfig (sampleWorld "dev") "dev" Proc.start).proc.viper.config = sampleSecret ∧
    (loadRemoteConfig (sampleWorld "dev") "dev" Proc.start).proc.viper.find ["app", "name"] =
      none ∧
    (loadRemoteConfig (sampleWorld "dev") "dev" Proc.start).proc.viper.Get "app.name" = none :=
  ⟨by decide, rfl, by decide, by decide, by decide, by decide, by decide, by decide⟩

/-- Claim C4, amended. The secret document replaces the configuration layer: after a
successful `loadRemoteConfig` the configuration layer is exactly the secret document
as loaded, and the key/value layer is the remote document laid over what the layer
held before.  For a key path that has no value in the secret document, whatever the
base YAML file set: if the secret document does not shadow it, the registry gives the
value the key/value layer gives it; if the secret document shadows it, the registry
has no value for it; and if the key/value layer was empty at the start and the remote
document has no value for it, the registry has no value for it. -/
theorem loadRemoteConfig_secret_replaces_config (w : World) (env : String) (p q : Proc)
    (h : loadRemoteConfig w env p = .done () q) :
    ∃ kv secret : Doc,
      (∃ rps, w.readRemoteConfig rps "yaml" = .ok kv ∧ .readRemoteConfig rps "yaml" ∈ q.trace) ∧
      (∃ client spath data json, w.kvGet client VaultSecretPath spath = .ok data ∧
        .kvGet client VaultSecretPath spath ∈ q.trace ∧
        w.marshalIndent data = .ok json ∧ w.decode "json" json = .ok secret) ∧
      q.viper.config = secret ∧
      q.viper.kvstore = kv ++ p.viper.kvstore ∧
      (∀ path, secret.configValue path = none → isPathShadowedInDeepMap path secret = "" →
        q.viper.find path = (kv ++ p.viper.kvstore).kvValue path) ∧
      (∀ path, secret.configValue path = none → isPathShadowedInDeepMap path secret ≠ "" →
        q.viper.find path = none) ∧
      (∀ path, p.viper.kvstore = [] → secret.configValue path = none →
        kv.kvValue path = none → q.viper.find path = none) := by
  obtain ⟨base, ep, path, rps, kv, pv, json, qv, secret, h1, h3, -, -, hpv, hv, h4, hq, hc, hk⟩ :=
    loadRemoteConfig_done w env p q h
  obtain ⟨addr, client, tok, data, -, -, -, h5, h6, -, hqv⟩ :=
    getVaultConfigAsJson_done w env pv qv json hv
  have hkvfind : ∀ path, secret.configValue path = none →
      isPathShadowedInDeepMap path secret = "" →
      q.viper.find path = (kv ++ p.viper.kvstore).kvValue path := by
    intro path hs hsh
    rw [find_of_kv q.viper path (by rw [hc]; exact hs) (by rw [hc]; exact hsh), hk]
  have hshfind : ∀ path, secret.configValue path = none →
      isPathShadowedInDeepMap path secret ≠ "" → q.viper.find path = none := by
    intro path hs hsh
    exact find_of_shadowed q.viper path (by rw [hc]; exact hs) (by rw [hc]; exact hsh)
  refine ⟨kv, secret, ⟨rps, h3, ?_⟩, ⟨_, _, data, json, h5, ?_, h6, h4⟩, hc, hk, hkvfind,
    hshfind, ?_⟩
  · simp [hq, hqv, hpv]
  · simp [hq, hqv]
  · intro path hp hs hkv
    by_cases hsh : isPathShadowedInDeepMap path secret = ""
    · rw [hkvfind path hs hsh, hp, List.append_nil]
      exact hkv
    · exact hshfind path hs hsh

theorem loadRemoteConfig_secret_replaces_config_witness :
    loadRemoteConfig scalarSecretWorld "dev" Proc.start =
        .done () (loadRemoteConfig scalarSecretWorld "dev" Proc.start).proc ∧
    scalarSecret.configValue ["db", "url"] = none ∧
    isPathShadowedInDeepMap ["db", "url"] scalarSecret ≠ "" ∧
    scalarSecret.configValue ["cache", "ttl"] = none ∧
    isPathShadowedInDeepMap ["cache", "ttl"] scalarSecret = "" ∧
    (loadRemoteConfig scalarSecretWorld "dev" Proc.start).proc.viper.find ["cache", "ttl"] =
      some (.int 60) ∧
    ∃ kv secret : Doc,
      (∃ rps, scalarSecretWorld.readRemoteConfig rps "yaml" = .ok kv ∧
        .readRemoteConfig rps "yaml" ∈
          (loadRemoteConfig scalarSecretWorld "dev" Proc.start).proc.trace) ∧
      (∃ client spath data json,
        scalarSecretWorld.kvGet client VaultSecretPath spath = .ok data ∧
        .kvGet client VaultSecretPath spath ∈
          (loadRemoteConfig scalarSecretWorld "dev" Proc.start).proc.trace ∧
        scalarSecretWorld.marshalIndent data = .ok json ∧
        scalarSecretWorld.decode "json" json = .ok secret) ∧
      (loadRemoteConfig scalarSecretWorld "dev" Proc.start).proc.viper.config = secret ∧
      (loadRemoteConfig scalarSecretWorld "dev" Proc.start).proc.viper.kvstore =
        kv ++ Proc.start.viper.kvstore ∧
      (∀ path, secret.configValue path = none → isPathShadowedInDeepMap path secret = "" →
        (loadRemoteConfig scalarSecretWorld "dev" Proc.start).proc.viper.find path =
          (kv ++ Proc.start.viper.kvstore).kvValue path) ∧
      (∀ path, secret.configValue path = none → isPathShadowedInDeepMap path secret ≠ "" →
        (loadRemoteConfig scalarSecretWorld "dev" Proc.start).proc.viper.find path = none) ∧
      (∀ path, Proc.start.viper.kvstore = [] → secret.configValue path = none →
        kv.kvValue path = none →
        (loadRemoteConfig scalarSecretWorld "dev" Proc.start).proc.viper.find path = none) :=
  ⟨by decide, by decide, by decide, by decide, by decide, by decide,
    loadRemoteConfig_secret_replaces_config scalarSecretWorld "dev" Proc.start _ (by decide)⟩

/-- Claim C5 at the failing input. When the login call returns a nil response together with
a nil error, `getVaultClient` is terminated by a nil pointer dereference, not by the
fatal error "Vault Authentication failed"; the login is the last call made, so no
token is set and no secret read is issued.  The same holds for the whole run of
`loadConfig`. -/
theorem getVaultClient_nil_response :
    nilResponseWorld.write ⟨"https://vault.internal:8200", ""⟩ AuthPath "role-1" "secret-1" =
      .ok none ∧
    getVaultClient nilResponseWorld sampleLoaded =
      .exit .nilDereference
        ⟨sampleLoaded.viper,
          [.newClient "https://vault.internal:8200",
           .write ⟨"https://vault.internal:8200", ""⟩ "auth/approle/login" "role-1"
             "secret-1"]⟩ ∧
    (getVaultClient nilResponseWorld sampleLoaded).exit? ≠
      some (.logFatal "Vault Authentication failed") ∧
    (loadConfig nilResponseWorld Proc.start).exit? = some .nilDereference ∧
    (loadConfig nilResponseWorld Proc.start).proc.trace =
      [.readInConfig "config" "yaml" ["resources"],
       .addRemoteProvider "consul" "consul.internal:8500" "apps/orders/dev",
       .readRemoteConfig [⟨"consul", "consul.internal:8500", "apps/orders/dev"⟩] "yaml",
       .newClient "https://vault.internal:8200",
       .write ⟨"https://vault.internal:8200", ""⟩ "auth/approle/login" "role-1" "secret-1"] :=
  ⟨rfl, by decide, by decide, by decide, by decide⟩

/-- Claim C6 at the failing input. When the login call returns a nil response together with
a nil error, the login is the last call of the run and returned no error, and the run
is terminated by a nil pointer dereference: nothing is logged and the termination is
not the one of `log.Fatal`, for any message. -/
theorem loadConfig_nil_response_not_fatal :
    callError nilResponseWorld
        (.write ⟨"https://vault.internal:8200", ""⟩ "auth/approle/login" "role-1" "secret-1") =
      none ∧
    (loadConfig nilResponseWorld Proc.start).proc.trace.getLast? =
      some (.write ⟨"https://vault.internal:8200", ""⟩ "auth/approle/login" "role-1"
        "secret-1") ∧
    (loadConfig nilResponseWorld Proc.start).exit? = some .nilDereference ∧
    ¬ ∃ msg, (loadConfig nilResponseWorld Proc.start).exit? = some (.logFatal msg) := by
  refine ⟨by decide, by decide, by decide, ?_⟩
  rintro ⟨msg, hmsg⟩
  have hx : (loadConfig nilResponseWorld Proc.start).exit? = some .nilDereference := by decide
  rw [hx] at hmsg
  cases hmsg

/-- Failure handling apart from the nil response.  In a run of `loadConfig` whose
login, if it makes one, does not return a nil response together with a nil error: a
run that terminates does so right after the call that failed (that call is the last
one recorded and every earlier one returned no error); if the failed call returned an
error, the termination is `log.Fatal` of that error; if the last call returned no
error, it is the login, whose response lacks a client token, and the termination is
`log.Fatal "Vault Authentication failed"`; and no error is ignored: in a run that
returns, every recorded call returned no error. -/
theorem loadConfig_failure_handling (w : World) (v : Viper)
    (hresp : ∀ client path roleId secretId,
      .write client path roleId secretId ∈ (loadConfig w ⟨v, []⟩).proc.trace →
      w.write client path roleId secretId ≠ .ok none) :
    (∀ x q, loadConfig w ⟨v, []⟩ = .exit x q →
      ∃ pre last, q.trace = pre ++ [last] ∧ (∀ e ∈ pre, callError w e = none) ∧
        ((∃ msg, callError w last = some msg ∧ x = .logFatal msg) ∨
         (callError w last = none ∧
            (∃ client path roleId secretId, last = .write client path roleId secretId) ∧
            x = .logFatal "Vault Authentication failed"))) ∧
    (∀ q, loadConfig w ⟨v, []⟩ = .done () q → ∀ e ∈ q.trace, callError w e = none) := by
  refine ⟨?_, fun q hrun => loadConfig_done_calls w v q hrun⟩
  intro x q hrun
  obtain ⟨pre, last, ht, hpre, hlast⟩ := loadConfig_exit_last w v x q hrun
  refine ⟨pre, last, ht, hpre, ?_⟩
  rcases hlast with hmsg | ⟨client, path, roleId, secretId, rfl, hw⟩
  · exact Or.inl hmsg
  · rcases hw with ⟨hnil, -⟩ | ⟨resp, hw, -, rfl⟩
    · exact absurd hnil (hresp _ _ _ _ (by simp [hrun, Res.proc, ht]))
    · exact Or.inr ⟨by simp [callError, hw], ⟨_, _, _, _, rfl⟩, rfl⟩

/-- Claim C7. For a run of `loadConfig` from registry `v`: if the YAML read it makes fails
(malformed or missing file), if the remote-store read it makes fails, or if the login
call it makes fails, then the run is terminated by `log.Fatal` of that error, the
failed call is the last call made, and the two layers of the registry are as the last
successful step left them: unchanged for the YAML failure; the decoded base YAML in
the configuration layer and an unchanged key/value layer for the remote-store
failure; the base YAML plus the remote document laid over the key/value layer, and
nothing from the secret store, for the login failure. -/
theorem loadConfig_failure_keeps_registry (w : World) (v : Viper) :
    (∀ name type paths msg,
      .readInConfig name type paths ∈ (loadConfig w ⟨v, []⟩).proc.trace →
      w.readInConfig name type paths = .error msg →
        (loadConfig w ⟨v, []⟩).exit? = some (.logFatal msg) ∧
        (loadConfig w ⟨v, []⟩).proc.trace = [.readInConfig name type paths] ∧
        (loadConfig w ⟨v, []⟩).proc.viper.config = v.config ∧
        (loadConfig w ⟨v, []⟩).proc.viper.kvstore = v.kvstore) ∧
    (∀ rps type msg,
      .readRemoteConfig rps type ∈ (loadConfig w ⟨v, []⟩).proc.trace →
      w.readRemoteConfig rps type = .error msg →
        (loadConfig w ⟨v, []⟩).exit? = some (.logFatal msg) ∧
        (∃ ep path, (loadConfig w ⟨v, []⟩).proc.trace =
          [.readInConfig "config" "yaml" (addPath "resources" v.configPaths),
           .addRemoteProvider ConsulProvider ep path, .readRemoteConfig rps type]) ∧
        w.readInConfig "config" "yaml" (addPath "resources" v.configPaths) =
          .ok (loadConfig w ⟨v, []⟩).proc.viper.config ∧
        (loadConfig w ⟨v, []⟩).proc.viper.kvstore = v.kvstore) ∧
    (∀ client path roleId secretId msg,
      .write client path roleId secretId ∈ (loadConfig w ⟨v, []⟩).proc.trace →
      w.write client path roleId secretId = .error msg →
        (loadConfig w ⟨v, []⟩).exit? = some (.logFatal msg) ∧
        (∃ ep cpath rps addr,
          (loadConfig w ⟨v, []⟩).proc.trace =
            [.readInConfig "config" "yaml" (addPath "resources" v.configPaths),
             .addRemoteProvider ConsulProvider ep cpath, .readRemoteConfig rps "yaml",
             .newClient addr, .write client path roleId secretId] ∧
          ∃ kv, w.readRemoteConfig rps "yaml" = .ok kv ∧
            (loadConfig w ⟨v, []⟩).proc.viper.kvstore = kv ++ v.kvstore) ∧
        w.readInConfig "config" "yaml" (addPath "resources" v.configPaths) =
          .ok (loadConfig w ⟨v, []⟩).proc.viper.config) := by
  by_cases henv : w.getenv "APP_ENV" = "local"
  · simp only [loadConfig, henv, if_true]
    rcases loadLocalConfig_run w ⟨v, []⟩ with ⟨m, h1, hr⟩ | ⟨doc, h1, hr⟩
    · rw [hr]
      refine ⟨?_, ?_, ?_⟩
      · intro name type paths msg hmem hfail
        simp only [Res.proc, List.nil_append, List.mem_singleton, Event.readInConfig.injEq] at hmem
        obtain ⟨rfl, rfl, rfl⟩ := hmem
        rw [h1] at hfail
        cases hfail
        exact ⟨rfl, rfl, rfl, rfl⟩
      · intro rps type msg hmem
        simp [Res.proc] at hmem
      · intro client path roleId secretId msg hmem
        simp [Res.proc] at hmem
    · rw [hr]
      refine ⟨?_, ?_, ?_⟩
      · intro name type paths msg hmem hfail
        simp only [Res.proc, List.nil_append, List.mem_singleton, Event.readInConfig.injEq] at hmem
        obtain ⟨rfl, rfl, rfl⟩ := hmem
        rw [h1] at hfail
        cases hfail
      · intro rps type msg hmem
        simp [Res.proc] at hmem
      · intro client path roleId secretId msg hmem
        simp [Res.proc] at hmem
  · simp only [loadConfig, henv, if_false]
    obtain ⟨ep, cpath, rps0, hst⟩ := loadRemoteConfig_stages w (w.getenv "APP_ENV") v
    rcases hst with ⟨m, h1, hx, ht, hc, hk⟩ | ⟨base, h1, hst⟩
    · refine ⟨?_, ?_, ?_⟩
      · intro name type paths msg hmem hfail
        simp only [ht, List.mem_singleton, Event.readInConfig.injEq] at hmem
        obtain ⟨rfl, rfl, rfl⟩ := hmem
        rw [h1] at hfail
        cases hfail
        exact ⟨hx, ht, hc, hk⟩
      · intro rps type msg hmem
        simp [ht] at hmem
      · intro client path roleId secretId msg hmem
        simp [ht] at hmem
    · rcases hst with ⟨m, h3, hx, ht, hc, hk⟩ | ⟨kv, addr, h3, hst⟩
      · refine ⟨?_, ?_, ?_⟩
        · intro name type paths msg hmem hfail
          simp only [ht, List.mem_cons, List.mem_singleton, Event.readInConfig.injEq,
            List.not_mem_nil, or_false, reduceCtorEq] at hmem
          obtain ⟨rfl, rfl, rfl⟩ := hmem
          rw [h1] at hfail
          cases hfail
        · intro rps type msg hmem hfail
          simp only [ht, List.mem_cons, List.mem_singleton, Event.readRemoteConfig.injEq,
            List.not_mem_nil, or_false, false_or, reduceCtorEq] at hmem
          obtain ⟨rfl, rfl⟩ := hmem
          rw [h3] at hfail
          cases hfail
          exact ⟨hx, ⟨ep, cpath, ht⟩, by rw [hc]; exact h1, hk⟩
        · intro client path roleId secretId msg hmem
          simp [ht] at hmem
      · rcases hst with ⟨m, h4, ht⟩ | ⟨cl, h4, hst⟩
        · refine ⟨?_, ?_, ?_⟩
          · intro name type paths msg hmem hfail
            simp only [ht, List.mem_cons, List.mem_singleton, Event.readInConfig.injEq,
              List.not_mem_nil, or_false, reduceCtorEq] at hmem
            obtain ⟨rfl, rfl, rfl⟩ := hmem
            rw [h1] at hfail
            cases hfail
          · intro rps type msg hmem hfail
            simp only [ht, List.mem_cons, List.mem_singleton, Event.readRemoteConfig.injEq,
              List.not_mem_nil, or_false, false_or, reduceCtorEq] at hmem
            obtain ⟨rfl, rfl⟩ := hmem
            rw [h3] at hfail
            cases hfail
          · intro client path roleId secretId msg hmem
            simp [ht] at hmem
        · rcases hst with ⟨ht, hc, hk, hx⟩ | ⟨tok, rest, h5, ht, hrest⟩
          · refine ⟨?_, ?_, ?_⟩
            · intro name type paths msg hmem hfail
              simp only [ht, List.mem_cons, List.mem_singleton, Event.readInConfig.injEq,
                List.not_mem_nil, or_false, reduceCtorEq] at hmem
              obtain ⟨rfl, rfl, rfl⟩ := hmem
              rw [h1] at hfail
              cases hfail
            · intro rps type msg hmem hfail
              simp only [ht, List.mem_cons, List.mem_singleton, Event.readRemoteConfig.injEq,
                List.not_mem_nil, or_false, false_or, reduceCtorEq] at hmem
              obtain ⟨rfl, rfl⟩ := hmem
              rw [h3] at hfail
              cases hfail
            · intro client path roleId secretId msg hmem hfail
              simp only [ht, List.mem_cons, List.mem_singleton, Event.write.injEq,
                List.not_mem_nil, or_false, false_or, reduceCtorEq] at hmem
              obtain ⟨rfl, rfl, rfl, rfl⟩ := hmem
              exact ⟨hx msg hfail, ⟨ep, cpath, rps0, addr, ht, kv, h3, hk⟩,
                by rw [hc]; exact h1⟩
          · have hno : ∀ e ∈ rest, (∀ n t ps, e ≠ .readInConfig n t ps) ∧
                (∀ r t, e ≠ .readRemoteConfig r t) ∧ (∀ c p r s, e ≠ .write c p r s) := by
              intro e he
              rcases hrest e he with ⟨c, m, s, rfl⟩ | ⟨d, rfl⟩ | ⟨t, j, rfl⟩ <;> simp
            refine ⟨?_, ?_, ?_⟩
            · intro name type paths msg hmem hfail
              simp only [ht, List.mem_append, List.mem_cons, List.mem_singleton,
                Event.readInConfig.injEq, List.not_mem_nil, or_false, reduceCtorEq] at hmem
              rcases hmem with ⟨rfl, rfl, rfl⟩ | hmem
              · rw [h1] at hfail
                cases hfail
              · exact absurd rfl ((hno _ hmem).1 name type paths)
            · intro rps type msg hmem hfail
              simp only [ht, List.mem_append, List.mem_cons, List.mem_singleton,
                Event.readRemoteConfig.injEq, List.not_mem_nil, or_false, false_or,
                reduceCtorEq] at hmem
              rcases hmem with ⟨rfl, rfl⟩ | hmem
              · rw [h3] at hfail
                cases hfail
              · exact absurd rfl ((hno _ hmem).2.1 rps type)
            · intro client path roleId secretId msg hmem hfail
              simp only [ht, List.mem_append, List.mem_cons, List.mem_singleton,
                Event.write.injEq, List.not_mem_nil, or_false, false_or,
                reduceCtorEq] at hmem
              rcases hmem with ⟨rfl, rfl, rfl, rfl⟩ | hmem
              · rw [h5] at hfail
                cases hfail
              · exact absurd rfl ((hno _ hmem).2.2 client path roleId secretId)

theorem loadConfig_failure_keeps_registry_witness :
    (.readInConfig "config" "yaml" ["resources"] ∈
        (loadConfig (badYamlWorld "dev") ⟨Viper.fresh, []⟩).proc.trace ∧
      (badYamlWorld "dev").readInConfig "config" "yaml" ["resources"] =
        .error "yaml: unmarshal errors" ∧
      (loadConfig (badYamlWorld "dev") ⟨Viper.fresh, []⟩).exit? =
        some (.logFatal "yaml: unmarshal errors") ∧
      (loadConfig (badYamlWorld "dev") ⟨Viper.fresh, []⟩).proc.trace =
        [.readInConfig "config" "yaml" ["resources"]] ∧
      (loadConfig (badYamlWorld "dev") ⟨Viper.fresh, []⟩).proc.viper.config =
        Viper.fresh.config ∧
      (loadConfig (badYamlWorld "dev") ⟨Viper.fresh, []⟩).proc.viper.kvstore =
        Viper.fresh.kvstore) ∧
    (.readRemoteConfig [⟨"consul", "consul.internal:8500", "apps/orders/dev"⟩] "yaml" ∈
        (loadConfig badRemoteWorld ⟨Viper.fresh, []⟩).proc.trace ∧
      badRemoteWorld.readRemoteConfig
          [⟨"consul", "consul.internal:8500", "apps/orders/dev"⟩] "yaml" =
        .error "Remote Configurations Error" ∧
      (loadConfig badRemoteWorld ⟨Viper.fresh, []⟩).exit? =
        some (.logFatal "Remote Configurations Error") ∧
      (loadConfig badRemoteWorld ⟨Viper.fresh, []⟩).proc.viper.kvstore =
        Viper.fresh.kvstore) ∧
    (.write ⟨"https://vault.internal:8200", ""⟩ "auth/approle/login" "role-1" "secret-1" ∈
        (loadConfig badLoginWorld ⟨Viper.fresh, []⟩).proc.trace ∧
      badLoginWorld.write ⟨"https://vault.internal:8200", ""⟩ "auth/approle/login" "role-1"
          "secret-1" = .error "permission denied" ∧
      (loadConfig badLoginWorld ⟨Viper.fresh, []⟩).exit? =
        some (.logFatal "permission denied")) :=
  ⟨⟨by decide, rfl,
      (loadConfig_failure_keeps_registry (badYamlWorld "dev") Viper.fresh).1
        "config" "yaml" ["resources"] "yaml: unmarshal errors" (by decide) rfl⟩,
    ⟨by decide, rfl,
      ((loadConfig_failure_keeps_registry badRemoteWorld Viper.fresh).2.1
        [⟨"consul", "consul.internal:8500", "apps/orders/dev"⟩] "yaml"
        "Remote Configurations Error" (by decide) rfl).1,
      ((loadConfig_failure_keeps_registry badRemoteWorld Viper.fresh).2.1
        [⟨"consul", "consul.internal:8500", "apps/orders/dev"⟩] "yaml"
        "Remote Configurations Error" (by decide) rfl).2.2.2⟩,
    ⟨by decide, rfl,
      ((loadConfig_failure_keeps_registry badLoginWorld Viper.fresh).2.2
        ⟨"https://vault.internal:8200", ""⟩ "auth/approle/login" "role-1" "secret-1"
        "permission denied" (by decide) rfl).1⟩⟩

/-- Claim C8. For every environment string and every process state,
`buildConsulEndpointAndPath` returns the endpoint `host ++ ":" ++ port` and the path
`root ++ env`, where `host`, `port` and `root` are the string values (`cast.ToString`)
of what the registry holds for `consul.host`, `consul.port` and `consul.path`: a
string as it is, an integer in decimal; nothing is inserted between `root` and `env`,
so for the empty environment string the path is `root` alone; the process state
(registry and trace) is returned unchanged. -/
theorem buildConsulEndpointAndPath_spec (env : String) (p : Proc) :
    buildConsulEndpointAndPath env p =
        .done (castToString (p.viper.find ["consul", "host"]) ++ ":" ++
                 castToString (p.viper.find ["consul", "port"]),
               castToString (p.viper.find ["consul", "path"]) ++ env) p ∧
    buildConsulEndpointAndPath "" p =
        .done (castToString (p.viper.find ["consul", "host"]) ++ ":" ++
                 castToString (p.viper.find ["consul", "port"]),
               castToString (p.viper.find ["consul", "path"])) p ∧
    (∀ host port root : String,
      p.viper.find ["consul", "host"] = some (.str host) →
      p.viper.find ["consul", "port"] = some (.str port) →
      p.viper.find ["consul", "path"] = some (.str root) →
        buildConsulEndpointAndPath env p = .done (host ++ ":" ++ port, root ++ env) p) ∧
    (∀ (host root : String) (port : Int),
      p.viper.find ["consul", "host"] = some (.str host) →
      p.viper.find ["consul", "port"] = some (.int port) →
      p.viper.find ["consul", "path"] = some (.str root) →
        buildConsulEndpointAndPath env p =
          .done (host ++ ":" ++ toString port, root ++ env) p) := by
  have hhost : splitKey (lowerKey "consul.host") = ["consul", "host"] := by decide
  have hport : splitKey (lowerKey "consul.port") = ["consul", "port"] := by decide
  have hpath : splitKey (lowerKey "consul.path") = ["consul", "path"] := by decide
  have hrun : buildConsulEndpointAndPath env p =
      .done (castToString (p.viper.find ["consul", "host"]) ++ ":" ++
               castToString (p.viper.find ["consul", "port"]),
             castToString (p.viper.find ["consul", "path"]) ++ env) p := by
    simp only [buildConsulEndpointAndPath, bind_apply, pure_apply, andThen_done, getViper,
      Viper.GetString, Viper.Get, hhost, hport, hpath]
  refine ⟨hrun, ?_, ?_, ?_⟩
  · simp only [buildConsulEndpointAndPath, bind_apply, pure_apply, andThen_done, getViper,
      Viper.GetString, Viper.Get, hhost, hport, hpath, String.append_empty]
  · intro host port root h1 h2 h3
    rw [hrun, h1, h2, h3]
    rfl
  · intro host root port h1 h2 h3
    rw [hrun, h1, h2, h3]
    rfl

theorem buildConsulEndpointAndPath_spec_witness :
    sampleLoaded.viper.find ["consul", "host"] = some (.str "consul.internal") ∧
    sampleLoaded.viper.find ["consul", "port"] = some (.int 8500) ∧
    sampleLoaded.viper.find ["consul", "path"] = some (.str "apps/orders/") ∧
    buildConsulEndpointAndPath "dev" sampleLoaded =
      .done ("consul.internal" ++ ":" ++ toString (8500 : Int), "apps/orders/" ++ "dev")
        sampleLoaded ∧
    buildConsulEndpointAndPath "dev" sampleLoaded =
      .done ("consul.internal:8500", "apps/orders/dev") sampleLoaded ∧
    buildConsulEndpointAndPath "" sampleLoaded =
      .done ("consul.internal:8500", "apps/orders/") sampleLoaded :=
  ⟨by decide, by decide, by decide,
    (buildConsulEndpointAndPath_spec "dev" sampleLoaded).2.2.2 "consul.internal"
      "apps/orders/" 8500 (by decide) (by decide) (by decide),
    by decide, by decide⟩

/-- An integer in the range of a Go `int` is its own 64-bit value. -/
theorem wrapInt64_of_range (i : Int) (hlo : -9223372036854775808 ≤ i)
    (hhi : i < 9223372036854775808) : wrapInt64 i = i := by
  unfold wrapInt64
  rw [Int.emod_eq_of_lt (by omega) (by omega)]
  omega

/-- The conversion `cast.ToInt` always gives a value in the range of a Go `int`. -/
theorem castToInt_range (w : World) (x : Option Value) :
    -9223372036854775808 ≤ castToInt w x ∧ castToInt w x < 9223372036854775808 := by
  have hw : ∀ i : Int, -9223372036854775808 ≤ wrapInt64 i ∧
      wrapInt64 i < 9223372036854775808 := by
    intro i
    unfold wrapInt64
    have h1 := Int.emod_nonneg (i + 9223372036854775808)
      (by decide : (18446744073709551616 : Int) ≠ 0)
    have h2 := Int.emod_lt_of_pos (i + 9223372036854775808)
      (by decide : (0 : Int) < 18446744073709551616)
    omega
  rcases x with _ | _ | s | i | b | m
  · simp [castToInt]
  · simp [castToInt]
  · exact hw _
  · exact hw _
  · cases b <;> simp [castToInt]
  · simp [castToInt]

/-- Claim C9. For every process state, `buildVaultEndpoint` returns
`scheme ++ "://" ++ host ++ ":" ++ port`, with `scheme` and `host` the string values
of what the registry holds for `vault.scheme` and `vault.host`, and `port` the decimal
rendering of the integer value (`cast.ToInt`, a 64-bit integer) of what it holds for
`vault.port`: the integer itself when the registry holds an integer in the 64-bit
range, and `0` when the key is absent.  In every run of `getVaultClient` the first
call is the creation of the client with that address, no other client is created,
and every login is made on the client created for that address. -/
theorem buildVaultEndpoint_spec (w : World) (p : Proc) :
    buildVaultEndpoint w p =
        .done (castToString (p.viper.find ["vault", "scheme"]) ++ "://" ++
          castToString (p.viper.find ["vault", "host"]) ++ ":" ++
          toString (castToInt w (p.viper.find ["vault", "port"]))) p ∧
    (p.viper.find ["vault", "port"] = none →
      buildVaultEndpoint w p =
        .done (castToString (p.viper.find ["vault", "scheme"]) ++ "://" ++
          castToString (p.viper.find ["vault", "host"]) ++ ":" ++ "0") p) ∧
    (∀ (scheme host : String) (port : Int),
      p.viper.find ["vault", "scheme"] = some (.str scheme) →
      p.viper.find ["vault", "host"] = some (.str host) →
      p.viper.find ["vault", "port"] = some (.int port) →
      -9223372036854775808 ≤ port → port < 9223372036854775808 →
        buildVaultEndpoint w p =
          .done (scheme ++ "://" ++ host ++ ":" ++ toString port) p) ∧
    ∃ addr rest, buildVaultEndpoint w p = .done addr p ∧
      (getVaultClient w p).proc.trace = p.trace ++ .newClient addr :: rest ∧
      (∀ a, .newClient a ∉ rest) ∧
      ∀ client path roleId secretId, .write client path roleId secretId ∈ rest →
        w.newClient addr = .ok client := by
  have hscheme : splitKey (lowerKey "vault.scheme") = ["vault", "scheme"] := by decide
  have hhost : splitKey (lowerKey "vault.host") = ["vault", "host"] := by decide
  have hport : splitKey (lowerKey "vault.port") = ["vault", "port"] := by decide
  have hrun : buildVaultEndpoint w p =
      .done (castToString (p.viper.find ["vault", "scheme"]) ++ "://" ++
        castToString (p.viper.find ["vault", "host"]) ++ ":" ++
        toString (castToInt w (p.viper.find ["vault", "port"]))) p := by
    simp only [buildVaultEndpoint, bind_apply, pure_apply, andThen_done, getViper,
      Viper.GetString, Viper.GetInt, Viper.Get, hscheme, hhost, hport]
  refine ⟨hrun, ?_, ?_, ?_⟩
  · intro hnone
    rw [hrun, hnone]
    rfl
  · intro scheme host port h1 h2 h3 hlo hhi
    rw [hrun, h1, h2, h3]
    simp only [castToString, castToInt, wrapInt64_of_range port hlo hhi]
  · refine ⟨castToString (p.viper.find ["vault", "scheme"]) ++ "://" ++
        castToString (p.viper.find ["vault", "host"]) ++ ":" ++
        toString (castToInt w (p.viper.find ["vault", "port"])), ?_⟩
    simp only [getVaultClient, bind_apply, pure_apply, andThen_done, emit, hrun, true_and]
    cases h1 : w.newClient (castToString (p.viper.find ["vault", "scheme"]) ++ "://" ++
        castToString (p.viper.find ["vault", "host"]) ++ ":" ++
        toString (castToInt w (p.viper.find ["vault", "port"]))) with
    | error e => exact ⟨[], by simp [terminate, Res.proc], by simp, by simp⟩
    | ok client =>
      simp only [bind_apply, pure_apply, andThen_done, emit]
      generalize h2 : w.write _ _ _ _ = x2
      rcases x2 with e | _ | ⟨_ | ⟨⟨tok⟩⟩⟩
      · exact ⟨[.write client AuthPath (w.getenv VaultRoleIdKey) (w.getenv VaultSecretIdKey)],
          by simp [terminate, Res.proc], by simp,
          by intro c pth r s hm; simp at hm; simp [hm]⟩
      · exact ⟨[.write client AuthPath (w.getenv VaultRoleIdKey) (w.getenv VaultSecretIdKey)],
          by simp [terminate, Res.proc], by simp,
          by intro c pth r s hm; simp at hm; simp [hm]⟩
      · exact ⟨[.write client AuthPath (w.getenv VaultRoleIdKey) (w.getenv VaultSecretIdKey)],
          by simp [terminate, Res.proc], by simp,
          by intro c pth r s hm; simp at hm; simp [hm]⟩
      · by_cases htok : tok = ""
        · exact ⟨[.write client AuthPath (w.getenv VaultRoleIdKey)
              (w.getenv VaultSecretIdKey)],
            by simp [terminate, Res.proc, htok], by simp,
            by intro c pth r s hm; simp at hm; simp [hm]⟩
        · exact ⟨[.write client AuthPath (w.getenv VaultRoleIdKey)
              (w.getenv VaultSecretIdKey), .setToken tok],
            by simp [terminate, Res.proc, htok, bind_apply, pure_apply, andThen_done, emit],
            by simp, by intro c pth r s hm; simp at hm; simp [hm]⟩

theorem buildVaultEndpoint_spec_witness :
    Proc.start.viper.find ["vault", "port"] = none ∧
    buildVaultEndpoint (sampleWorld "dev") Proc.start = .done "://:0" Proc.start ∧
    sampleLoaded.viper.find ["vault", "scheme"] = some (.str "https") ∧
    sampleLoaded.viper.find ["vault", "host"] = some (.str "vault.internal") ∧
    sampleLoaded.viper.find ["vault", "port"] = some (.int 8200) ∧
    buildVaultEndpoint (sampleWorld "dev") sampleLoaded =
      .done ("https" ++ "://" ++ "vault.internal" ++ ":" ++ toString (8200 : Int))
        sampleLoaded ∧
    buildVaultEndpoint (sampleWorld "dev") sampleLoaded =
      .done "https://vault.internal:8200" sampleLoaded :=
  ⟨by decide,
    (buildVaultEndpoint_spec (sampleWorld "dev") Proc.start).2.1 (by decide),
    by decide, by decide, by decide,
    (buildVaultEndpoint_spec (sampleWorld "dev") sampleLoaded).2.2.1 "https" "vault.internal"
      8200 (by decide) (by decide) (by decide) (by decide) (by decide),
    by decide⟩

/-- Claim C10. For every environment string, a successful `getVaultConfigAsJson env` has
made exactly these calls, in this order: the creation of the client, one login on the
path `auth/approle/login` with the role and secret identifiers read from the
environment variables `VAULT_ROLE_ID` and `VAULT_SECRET_ID`, setting the (non-empty)
client token of the login response, one secret read on the mount `/secret` at the
path `vault.path ++ env` with that token, and the JSON serialisation of the payload
of that secret, whose result is the returned string; the registry is unchanged. -/
theorem getVaultConfigAsJson_spec (w : World) (env : String) (p q : Proc) (json : String)
    (h : getVaultConfigAsJson w env p = .done json q) :
    ∃ addr client tok data,
      q.trace = p.trace ++
        [.newClient addr,
         .write client "auth/approle/login" (w.getenv "VAULT_ROLE_ID")
           (w.getenv "VAULT_SECRET_ID"),
         .setToken tok,
         .kvGet ⟨client.address, tok⟩ "/secret" (p.viper.GetString "vault.path" ++ env),
         .marshalIndent data] ∧
      w.newClient addr = .ok client ∧
      w.write client "auth/approle/login" (w.getenv "VAULT_ROLE_ID")
          (w.getenv "VAULT_SECRET_ID") = .ok (some ⟨some ⟨tok⟩⟩) ∧
      tok ≠ "" ∧
      w.kvGet ⟨client.address, tok⟩ "/secret" (p.viper.GetString "vault.path" ++ env) =
        .ok data ∧
      w.marshalIndent data = .ok json ∧
      q.viper = p.viper := by
  obtain ⟨addr, client, tok, data, h1, h2, h3, h4, h5, h6, h7⟩ :=
    getVaultConfigAsJson_done w env p q json h
  exact ⟨addr, client, tok, data, h7, h1, h2, h3, h4, h5, h6⟩

theorem getVaultConfigAsJson_spec_witness :
    getVaultConfigAsJson (sampleWorld "dev") "dev" sampleLoaded =
        .done "secret-json" sampleAfterVault ∧
    ∃ addr client tok data,
      sampleAfterVault.trace = sampleLoaded.trace ++
        [.newClient addr,
         .write client "auth/approle/login" ((sampleWorld "dev").getenv "VAULT_ROLE_ID")
           ((sampleWorld "dev").getenv "VAULT_SECRET_ID"),
         .setToken tok,
         .kvGet ⟨client.address, tok⟩ "/secret"
           (sampleLoaded.viper.GetString "vault.path" ++ "dev"),
         .marshalIndent data] ∧
      (sampleWorld "dev").newClient addr = .ok client ∧
      (sampleWorld "dev").write client "auth/approle/login"
          ((sampleWorld "dev").getenv "VAULT_ROLE_ID")
          ((sampleWorld "dev").getenv "VAULT_SECRET_ID") = .ok (some ⟨some ⟨tok⟩⟩) ∧
      tok ≠ "" ∧
      (sampleWorld "dev").kvGet ⟨client.address, tok⟩ "/secret"
          (sampleLoaded.viper.GetString "vault.path" ++ "dev") = .ok data ∧
      (sampleWorld "dev").marshalIndent data = .ok "secret-json" ∧
      sampleAfterVault.viper = sampleLoaded.viper :=
  ⟨by decide,
    getVaultConfigAsJson_spec (sampleWorld "dev") "dev" sampleLoaded sampleAfterVault
      "secret-json" (by decide)⟩

end Config
